import Mathlib

/-! CDMS chaincode (src/cdms.go): a shallow embedding

The chaincode keeps five kinds of JSON documents (policy, org, user, case, record) in the
world state of a ledger, under keys with a type prefix, and guards reads of cases and records
by the policy the document names.

The chaincode calls two libraries that are not part of it, encoding/json and the stub and
client identity of the transaction context; they are modelled by what they are documented to
do.

* Go strings are Lean strings, so only well-formed UTF-8 text is covered.
* A byte string handed to or produced by encoding/json is represented by the JSON value it
  spells (`Bytes`); the concrete syntax of JSON text is not modelled. A number is kept as its
  literal, and where the code decodes into `interface{}` the literal is converted as
  strconv.ParseFloat converts it, which fails for a number that does not round to a finite
  float64.
* The world state is a finite map kept as a list of entries in ascending key order. Keys are
  ordered as the state database orders them (the code is written for LevelDB): by the bytes
  of their UTF-8 encoding.
* The calls of the stub (GetState, PutState, DelState, GetStateByRange) never fail on the
  in-memory state, and json.Marshal never fails on the five document types: the branches of
  the source that only pass on such an error have no counterpart here.
* The transaction context is given as its two parts, the client identity and the world state.
  A transaction that writes returns the Go error (`none` for nil) together with the world state
  after the call.
* log.Printf has no effect on results or state and is left out.
-/

namespace CDMS

/-! ## JSON values and Go values -/

/-- JSON values as encoding/json reads and writes them. A number is kept as its literal. -/
inductive JSON where
  | null
  | bool (b : Bool)
  | num (literal : String)
  | str (s : String)
  | arr (elems : List JSON)
  | obj (members : List (String × JSON))

/-- A byte string as encoding/json sees it: the JSON value it spells, `none` for bytes that the
scanner of encoding/json rejects (bytes that are not JSON text, and text nested deeper than the
scanner allows). -/
abbrev Bytes := Option JSON

/-- A Go value of type `[]string`; `none` is the nil slice. -/
abbrev StringSlice := Option (List String)

/-- The elements a `for ... range` loop over the slice visits, in order. -/
def StringSlice.elems : StringSlice → List String
  | none => []
  | some xs => xs

structure Record where
  DocType : String
  ID : String
  CaseID : String
  RecordType : String
  FileHash : String
  OffChainURI : String
  OwnerOrg : String
  CreatedAt : String
  PolicyID : String
  Description : String
  deriving DecidableEq, Repr

structure Policy where
  DocType : String
  PolicyID : String
  Categories : StringSlice
  AllowedOrgs : StringSlice
  AllowedRoles : StringSlice
  CreatedAt : String
  CreatedBy : String
  deriving DecidableEq, Repr

structure Organization where
  DocType : String
  OrgID : String
  Name : String
  MspID : String
  Members : StringSlice
  deriving DecidableEq, Repr

structure User where
  DocType : String
  Username : String
  FullName : String
  Email : String
  Role : String
  Organization : String
  PasswordHash : String
  CreatedAt : String
  deriving DecidableEq, Repr

structure Case where
  DocType : String
  ID : String
  Title : String
  Description : String
  Status : String
  Jurisdiction : String
  CaseType : String
  CreatedBy : String
  CreatedAt : String
  Organization : String
  PolicyID : String
  deriving DecidableEq, Repr

/-- The zero value of the Record struct (`var rec Record`). -/
def Record.zero : Record := ⟨"", "", "", "", "", "", "", "", "", ""⟩

/-- The zero value of the Policy struct (`var policy Policy`). -/
def Policy.zero : Policy := ⟨"", "", none, none, none, "", ""⟩

/-- The zero value of the Organization struct. -/
def Organization.zero : Organization := ⟨"", "", "", "", none⟩

/-- The zero value of the User struct. -/
def User.zero : User := ⟨"", "", "", "", "", "", "", ""⟩

/-- The zero value of the Case struct (`var caseObj Case`). -/
def Case.zero : Case := ⟨"", "", "", "", "", "", "", "", "", "", ""⟩

/-! ## Errors -/

/-- The errors the chaincode returns, one constructor for each message. -/
inductive Error where
  /-- an error of json.Unmarshal returned as it is (`return nil, err`) -/
  | json
  /-- the message "the policy %s already exists" -/
  | policyExists (policyId : String)
  /-- the message "failed to unmarshal categories JSON: %v" -/
  | categoriesJSON
  /-- the message "failed to unmarshal allowedOrgs JSON: %v" -/
  | allowedOrgsJSON
  /-- the message "failed to unmarshal allowedRoles JSON: %v" -/
  | allowedRolesJSON
  /-- the message "the policy %s does not exist" -/
  | policyNotExist (policyId : String)
  /-- the message "organization %s not found" -/
  | organizationNotFound (orgId : String)
  /-- the message "user %s already exists" -/
  | userExists (username : String)
  /-- the message "user %s not found" -/
  | userNotFound (username : String)
  /-- the message "case %s already exists" -/
  | caseExists (id : String)
  /-- the message "case %s not found" -/
  | caseNotFound (id : String)
  /-- the message "case %s does not exist" -/
  | caseNotExist (id : String)
  /-- the message "failed to get policy %s: %v" -/
  | getPolicy (policyId : String) (cause : Error)
  /-- the message "failed to get client MSP ID: %v" -/
  | clientMSPID (cause : String)
  /-- the message "organization %s not allowed by policy %s" -/
  | organizationNotAllowed (clientMSPID policyId : String)
  /-- the message "access denied by policy for organization %s and role %s" -/
  | accessDenied (clientMSPID userRole : String)
  /-- the message "record %s already exists" -/
  | recordExists (id : String)
  /-- the message "record %s not found" -/
  | recordNotFound (id : String)
  /-- the message "record %s has no associated policy" -/
  | recordNoPolicy (id : String)
  /-- the message "invalid metadata JSON: %v" -/
  | metadataJSON
  deriving DecidableEq, Repr

/-! ## encoding/json on the document types -/

/-- Case folding of one character of an object key when encoding/json looks for the struct
field: ASCII letters fold to lower case, and the two letters outside ASCII that fold to an ASCII
letter (U+017F to s, U+212A to k) fold to it. -/
def foldRune (c : Char) : Char :=
  if c.toNat = 0x17F then 's' else if c.toNat = 0x212A then 'k' else c.toLower

/-- The folded form of an object key; a key names a struct field when the folded forms agree. -/
def foldName (s : String) : String := ⟨s.toList.map foldRune⟩

/-- Unmarshal of a JSON value into a string that holds `cur`: null leaves it as it is, a JSON
string replaces it, every other value is an UnmarshalTypeError. -/
def unmarshalString (cur : String) : JSON → Option String
  | .null => some cur
  | .str s => some s
  | _ => none

/-- Unmarshal of the elements of a JSON array into a slice of strings, each into a zero
element. -/
def unmarshalElems : List JSON → Option (List String)
  | [] => some []
  | e :: es =>
    match unmarshalString "" e with
    | none => none
    | some x =>
      match unmarshalElems es with
      | none => none
      | some xs => some (x :: xs)

/-- Unmarshal of a JSON value into a `[]string` that holds `cur`: null leaves it as it is, an
array replaces it, every other value is an error. -/
def unmarshalStringSlice (cur : StringSlice) : JSON → Option StringSlice
  | .null => some cur
  | .arr es =>
    match unmarshalElems es with
    | none => none
    | some xs => some (some xs)
  | _ => none

/-- The effect of one object member on a Case, by the json tags of the struct. -/
def Case.setField (c : Case) (key : String) (v : JSON) : Option Case :=
  let name := foldName key
  if name = "doctype" then (unmarshalString c.DocType v).map fun x => { c with DocType := x }
  else if name = "id" then (unmarshalString c.ID v).map fun x => { c with ID := x }
  else if name = "title" then (unmarshalString c.Title v).map fun x => { c with Title := x }
  else if name = "description" then
    (unmarshalString c.Description v).map fun x => { c with Description := x }
  else if name = "status" then (unmarshalString c.Status v).map fun x => { c with Status := x }
  else if name = "jurisdiction" then
    (unmarshalString c.Jurisdiction v).map fun x => { c with Jurisdiction := x }
  else if name = "casetype" then
    (unmarshalString c.CaseType v).map fun x => { c with CaseType := x }
  else if name = "createdby" then
    (unmarshalString c.CreatedBy v).map fun x => { c with CreatedBy := x }
  else if name = "createdat" then
    (unmarshalString c.CreatedAt v).map fun x => { c with CreatedAt := x }
  else if name = "organization" then
    (unmarshalString c.Organization v).map fun x => { c with Organization := x }
  else if name = "policyid" then
    (unmarshalString c.PolicyID v).map fun x => { c with PolicyID := x }
  else some c

/-- The effect of one object member on a Record, by the json tags of the struct. -/
def Record.setField (r : Record) (key : String) (v : JSON) : Option Record :=
  let name := foldName key
  if name = "doctype" then (unmarshalString r.DocType v).map fun x => { r with DocType := x }
  else if name = "id" then (unmarshalString r.ID v).map fun x => { r with ID := x }
  else if name = "caseid" then (unmarshalString r.CaseID v).map fun x => { r with CaseID := x }
  else if name = "recordtype" then
    (unmarshalString r.RecordType v).map fun x => { r with RecordType := x }
  else if name = "filehash" then
    (unmarshalString r.FileHash v).map fun x => { r with FileHash := x }
  else if name = "offchainuri" then
    (unmarshalString r.OffChainURI v).map fun x => { r with OffChainURI := x }
  else if name = "ownerorg" then
    (unmarshalString r.OwnerOrg v).map fun x => { r with OwnerOrg := x }
  else if name = "createdat" then
    (unmarshalString r.CreatedAt v).map fun x => { r with CreatedAt := x }
  else if name = "policyid" then
    (unmarshalString r.PolicyID v).map fun x => { r with PolicyID := x }
  else if name = "description" then
    (unmarshalString r.Description v).map fun x => { r with Description := x }
  else some r

/-- The effect of one object member on a Policy, by the json tags of the struct. -/
def Policy.setField (p : Policy) (key : String) (v : JSON) : Option Policy :=
  let name := foldName key
  if name = "doctype" then (unmarshalString p.DocType v).map fun x => { p with DocType := x }
  else if name = "policyid" then
    (unmarshalString p.PolicyID v).map fun x => { p with PolicyID := x }
  else if name = "categories" then
    (unmarshalStringSlice p.Categories v).map fun x => { p with Categories := x }
  else if name = "allowedorgs" then
    (unmarshalStringSlice p.AllowedOrgs v).map fun x => { p with AllowedOrgs := x }
  else if name = "allowedroles" then
    (unmarshalStringSlice p.AllowedRoles v).map fun x => { p with AllowedRoles := x }
  else if name = "createdat" then
    (unmarshalString p.CreatedAt v).map fun x => { p with CreatedAt := x }
  else if name = "createdby" then
    (unmarshalString p.CreatedBy v).map fun x => { p with CreatedBy := x }
  else some p

/-- The effect of one object member on an Organization, by the json tags of the struct. -/
def Organization.setField (o : Organization) (key : String) (v : JSON) : Option Organization :=
  let name := foldName key
  if name = "doctype" then (unmarshalString o.DocType v).map fun x => { o with DocType := x }
  else if name = "orgid" then (unmarshalString o.OrgID v).map fun x => { o with OrgID := x }
  else if name = "name" then (unmarshalString o.Name v).map fun x => { o with Name := x }
  else if name = "mspid" then (unmarshalString o.MspID v).map fun x => { o with MspID := x }
  else if name = "members" then
    (unmarshalStringSlice o.Members v).map fun x => { o with Members := x }
  else some o

/-- The effect of one object member on a User, by the json tags of the struct. -/
def User.setField (u : User) (key : String) (v : JSON) : Option User :=
  let name := foldName key
  if name = "doctype" then (unmarshalString u.DocType v).map fun x => { u with DocType := x }
  else if name = "username" then
    (unmarshalString u.Username v).map fun x => { u with Username := x }
  else if name = "fullname" then
    (unmarshalString u.FullName v).map fun x => { u with FullName := x }
  else if name = "email" then (unmarshalString u.Email v).map fun x => { u with Email := x }
  else if name = "role" then (unmarshalString u.Role v).map fun x => { u with Role := x }
  else if name = "organization" then
    (unmarshalString u.Organization v).map fun x => { u with Organization := x }
  else if name = "passwordhash" then
    (unmarshalString u.PasswordHash v).map fun x => { u with PasswordHash := x }
  else if name = "createdat" then
    (unmarshalString u.CreatedAt v).map fun x => { u with CreatedAt := x }
  else some u

/-- The members of a JSON object applied in order to a struct value; a member that does not
fit its field makes the whole Unmarshal an error. -/
def unmarshalMembers {α : Type} (setField : α → String → JSON → Option α) :
    α → List (String × JSON) → Option α
  | a, [] => some a
  | a, (k, v) :: ms =>
    match setField a k v with
    | none => none
    | some b => unmarshalMembers setField b ms

/-- The call json.Unmarshal(data, &x) for a struct x holding `zero`: bytes that are not JSON
are an error, null leaves x as it is, an object sets the fields its keys name, and every other
JSON value is an error. -/
def unmarshalStruct {α : Type} (setField : α → String → JSON → Option α) (zero : α) :
    Bytes → Except Error α
  | none => .error .json
  | some .null => .ok zero
  | some (.obj ms) =>
    match unmarshalMembers setField zero ms with
    | none => .error .json
    | some a => .ok a
  | some _ => .error .json

def UnmarshalCase : Bytes → Except Error Case := unmarshalStruct Case.setField Case.zero

def UnmarshalRecord : Bytes → Except Error Record := unmarshalStruct Record.setField Record.zero

def UnmarshalPolicy : Bytes → Except Error Policy := unmarshalStruct Policy.setField Policy.zero

def UnmarshalOrganization : Bytes → Except Error Organization :=
  unmarshalStruct Organization.setField Organization.zero

def UnmarshalUser : Bytes → Except Error User := unmarshalStruct User.setField User.zero

/-- The call json.Unmarshal([]byte(text), &xs) for a nil `[]string` xs; `none` is an error. -/
def UnmarshalStringSlice : Bytes → Option StringSlice
  | none => none
  | some v => unmarshalStringSlice none v

/-- A Go value of type `map[string]interface{}` after Unmarshal, for the lookups the chaincode
makes: the members of the object in the order of the text (empty for the nil map); of two
members with one key the later one is the entry of the map. -/
abbrev Updates := List (String × JSON)

/-- The value of a string of decimal digits. -/
def digitsValue (ds : List Char) : Nat :=
  ds.foldl (fun n c => 10 * n + (c.toNat - 48)) 0

def isDigit (c : Char) : Bool := decide (48 ≤ c.toNat) && decide (c.toNat ≤ 57)

/-- The exponent part of a number literal of JSON, which may be missing: whether its sign is
minus, and its value; `none` when the characters are not an exponent part. -/
def readExponent (cs : List Char) : Option (Bool × Nat) :=
  match cs with
  | [] => some (false, 0)
  | e :: rest =>
    let negative := match rest with
      | '-' :: _ => true
      | _ => false
    let ds := match rest with
      | '-' :: ds => ds
      | '+' :: ds => ds
      | ds => ds
    if (e = 'e' ∨ e = 'E') ∧ ds ≠ [] ∧ ds.all isDigit = true then
      some (negative, digitsValue ds)
    else none

/-- A number literal of JSON, `-? (0 | [1-9][0-9]*) (. [0-9]+)? ([eE] [+-]? [0-9]+)?`, read as
the triple (mantissa, up, down) that stands for the absolute value
mantissa * 10 ^ up / 10 ^ down; `none` for a string that is not a number literal of JSON, which
no JSON text holds. -/
def readFloat (literal : String) : Option (Nat × Nat × Nat) :=
  let unsigned := match literal.toList with
    | '-' :: rest => rest
    | cs => cs
  let intPart := unsigned.takeWhile isDigit
  let afterInt := unsigned.dropWhile isDigit
  let fracPart := match afterInt with
    | '.' :: rest => rest.takeWhile isDigit
    | _ => []
  let afterFrac := match afterInt with
    | '.' :: rest => rest.dropWhile isDigit
    | rest => rest
  let fracOk := match afterInt with
    | '.' :: _ => !fracPart.isEmpty
    | _ => true
  let intOk := match intPart with
    | [] => false
    | '0' :: rest => rest.isEmpty
    | _ => true
  if intOk && fracOk then
    match readExponent afterFrac with
    | none => none
    | some (false, e) => some (digitsValue (intPart ++ fracPart), e, fracPart.length)
    | some (true, e) => some (digitsValue (intPart ++ fracPart), 0, fracPart.length + e)
  else none

/-- The least absolute value that does not round to a finite float64: half a unit in the last
place above the largest float64, 2 ^ 1024 - 2 ^ 971. -/
def float64Limit : Nat := 2 ^ 1024 - 2 ^ 970

/-- The conversion of a number literal for a Go value of type `interface{}`, which is
strconv.ParseFloat(literal, 64): true when it returns no error, that is, when the number rounds
to a finite float64. A number that rounds to zero is no error. -/
def convertNumber (literal : String) : Bool :=
  match readFloat literal with
  | none => false
  | some (mantissa, up, down) => decide (mantissa * 10 ^ up < float64Limit * 10 ^ down)

mutual
/-- Decoding a JSON value into a Go value of type `interface{}`: true when no error is saved.
Strings, booleans and null always convert; a number has to convert to a float64; arrays and
objects are decoded element by element. -/
def valueInterface : JSON → Bool
  | .num literal => convertNumber literal
  | .arr elems => arrayInterface elems
  | .obj members => objectInterface members
  | _ => true
/-- Decoding the elements of an array into a `[]interface{}`: true when no error is saved. -/
def arrayInterface : List JSON → Bool
  | [] => true
  | v :: rest => valueInterface v && arrayInterface rest
/-- Decoding the members of an object into a `map[string]interface{}`: true when no error is
saved. Every member is decoded, also one that a later member with the same key replaces. -/
def objectInterface : List (String × JSON) → Bool
  | [] => true
  | (_, v) :: rest => valueInterface v && objectInterface rest
end

/-- The call json.Unmarshal([]byte(text), &updates) for a nil map: null leaves the map nil, an
object fills it, unless the conversion of one of its numbers, at any depth, fails: that error is
saved and returned when the object is read; everything else is an error (`none`). -/
def UnmarshalUpdates : Bytes → Option Updates
  | some .null => some []
  | some (.obj ms) => if objectInterface ms then some ms else none
  | _ => none

/-- The entry of the map under `key`, if there is one: the last member with that key. -/
def Updates.get (m : Updates) (key : String) : Option JSON :=
  match m with
  | [] => none
  | (k, v) :: rest =>
    match Updates.get rest key with
    | some w => some w
    | none => if k = key then some v else none

/-- The type assertion `updates[key].(string)`: the string and ok = true when the map has a
JSON string under the key, else ok = false. -/
def Updates.getString (m : Updates) (key : String) : Option String :=
  match m.get key with
  | some (.str s) => some s
  | _ => none

/-- Marshal of a `[]string` field without omitempty: null for the nil slice. -/
def marshalStringSlice : StringSlice → JSON
  | none => .null
  | some xs => .arr (xs.map JSON.str)

/-- The member of a `[]string` field tagged omitempty: left out when the slice has no
elements. -/
def marshalOmitEmpty (key : String) (xs : StringSlice) : List (String × JSON) :=
  if xs.elems = [] then [] else [(key, marshalStringSlice xs)]

def MarshalRecord (r : Record) : Bytes :=
  some (.obj [("docType", .str r.DocType), ("id", .str r.ID), ("caseId", .str r.CaseID),
    ("recordType", .str r.RecordType), ("fileHash", .str r.FileHash),
    ("offChainUri", .str r.OffChainURI), ("ownerOrg", .str r.OwnerOrg),
    ("createdAt", .str r.CreatedAt), ("policyId", .str r.PolicyID),
    ("description", .str r.Description)])

def MarshalPolicy (p : Policy) : Bytes :=
  some (.obj ([("docType", .str p.DocType), ("policyId", .str p.PolicyID),
      ("categories", marshalStringSlice p.Categories)]
    ++ marshalOmitEmpty "allowedOrgs" p.AllowedOrgs
    ++ marshalOmitEmpty "allowedRoles" p.AllowedRoles
    ++ [("createdAt", .str p.CreatedAt), ("createdBy", .str p.CreatedBy)]))

def MarshalUser (u : User) : Bytes :=
  some (.obj [("docType", .str u.DocType), ("username", .str u.Username),
    ("fullName", .str u.FullName), ("email", .str u.Email), ("role", .str u.Role),
    ("organization", .str u.Organization), ("passwordHash", .str u.PasswordHash),
    ("createdAt", .str u.CreatedAt)])

def MarshalCase (c : Case) : Bytes :=
  some (.obj [("docType", .str c.DocType), ("id", .str c.ID), ("title", .str c.Title),
    ("description", .str c.Description), ("status", .str c.Status),
    ("jurisdiction", .str c.Jurisdiction), ("caseType", .str c.CaseType),
    ("createdBy", .str c.CreatedBy), ("createdAt", .str c.CreatedAt),
    ("organization", .str c.Organization), ("policyId", .str c.PolicyID)])

/-! ## The world state -/

/-- The UTF-8 encoding of one code point, as a list of bytes. -/
def utf8Rune (c : Nat) : List Nat :=
  if c < 0x80 then [c]
  else if c < 0x800 then [0xC0 + c / 0x40, 0x80 + c % 0x40]
  else if c < 0x10000 then [0xE0 + c / 0x1000, 0x80 + c / 0x40 % 0x40, 0x80 + c % 0x40]
  else [0xF0 + c / 0x40000, 0x80 + c / 0x1000 % 0x40, 0x80 + c / 0x40 % 0x40, 0x80 + c % 0x40]

/-- The bytes of a Go string. -/
def utf8 (s : String) : List Nat := s.toList.flatMap fun c => utf8Rune c.toNat

/-- Lexicographic order of byte strings, the order in which LevelDB keeps the keys of the
state database. -/
def bytesLt : List Nat → List Nat → Bool
  | _, [] => false
  | [], _ :: _ => true
  | a :: as, b :: bs => decide (a < b) || (decide (a = b) && bytesLt as bs)

/-- The order of two keys in the state database. -/
def keyLt (a b : String) : Bool := bytesLt (utf8 a) (utf8 b)

/-- The world state behind the stub: the entries in ascending key order. -/
abbrev WorldState := List (String × Bytes)

/-- The invariant of a world state: keys strictly ascending (so no key occurs twice). -/
def WorldState.Sorted (s : WorldState) : Prop :=
  List.Pairwise (fun a b => keyLt a.1 b.1 = true) s

/-- The call ctx.GetStub().GetState(key): the value, or nil (`none`) for an absent key. -/
def GetState : WorldState → String → Option Bytes
  | [], _ => none
  | (k, v) :: rest, key => if k = key then some v else GetState rest key

/-- The call ctx.GetStub().PutState(key, value): the state with the key set to the value. -/
def PutState : WorldState → String → Bytes → WorldState
  | [], key, value => [(key, value)]
  | (k, v) :: rest, key, value =>
    if k = key then (key, value) :: rest
    else if keyLt key k then (key, value) :: (k, v) :: rest
    else (k, v) :: PutState rest key value

/-- The call ctx.GetStub().DelState(key): the state without the key. -/
def DelState : WorldState → String → WorldState
  | [], _ => []
  | (k, v) :: rest, key => if k = key then rest else (k, v) :: DelState rest key

/-- The results the iterator of ctx.GetStub().GetStateByRange(startKey, endKey) yields: the
entries with startKey ≤ key < endKey in key order; an empty endKey leaves the range open. -/
def GetStateByRange (s : WorldState) (startKey endKey : String) : List (String × Bytes) :=
  s.filter fun qr => !keyLt qr.1 startKey && (decide (endKey = "") || keyLt qr.1 endKey)

/-- The result pair of ctx.GetClientIdentity().GetMSPID(): the MSP id and the error (`none`
for nil). -/
structure ClientIdentity where
  mspID : String
  err : Option String
  deriving DecidableEq, Repr

/-- The identity of a caller whose organization is resolved to `org`. -/
def caller (org : String) : ClientIdentity := ⟨org, none⟩

/-! ## Policies -/

/-- The loop over policy.AllowedOrgs: true as soon as an entry is the caller's MSP id or the
wildcard. -/
def orgAllowed : List String → String → Bool
  | [], _ => false
  | o :: rest, clientMSPID =>
    if o = clientMSPID || o = "*" then true else orgAllowed rest clientMSPID

/-- The loop over policy.AllowedRoles: true as soon as an entry is the given role or the
wildcard. -/
def roleAllowed : List String → String → Bool
  | [], _ => false
  | r :: rest, userRole =>
    if r = userRole || r = "*" then true else roleAllowed rest userRole

def CreatePolicy (ci : ClientIdentity) (s : WorldState) (policyId : String)
    (categoriesJSON allowedOrgsJSON allowedRolesJSON : Bytes) : Option Error × WorldState :=
  let key := "policy:" ++ policyId
  match GetState s key with
  | some _ => (some (.policyExists policyId), s)
  | none =>
    match UnmarshalStringSlice categoriesJSON with
    | none => (some .categoriesJSON, s)
    | some categories =>
      match UnmarshalStringSlice allowedOrgsJSON with
      | none => (some .allowedOrgsJSON, s)
      | some allowedOrgs =>
        match UnmarshalStringSlice allowedRolesJSON with
        | none => (some .allowedRolesJSON, s)
        | some allowedRoles =>
          let clientMSPID := ci.mspID
          let policy : Policy :=
            { DocType := "policy", PolicyID := policyId, Categories := categories,
              AllowedOrgs := allowedOrgs, AllowedRoles := allowedRoles,
              CreatedBy := clientMSPID, CreatedAt := "auto-generated" }
          (none, PutState s key (MarshalPolicy policy))

def QueryPolicy (s : WorldState) (policyId : String) : Except Error Policy :=
  let key := "policy:" ++ policyId
  match GetState s key with
  | none => .error (.policyNotExist policyId)
  | some policyJSON => UnmarshalPolicy policyJSON

/-- The loop of QueryAllPolicies over the results of the range scan. -/
def QueryAllPolicies.loop : List (String × Bytes) → List Policy → Except Error (List Policy)
  | [], policies => .ok policies
  | qr :: rest, policies =>
    match UnmarshalPolicy qr.2 with
    | .error err => .error err
    | .ok p =>
      if p.DocType = "policy" then QueryAllPolicies.loop rest (policies ++ [p])
      else QueryAllPolicies.loop rest policies

def QueryAllPolicies (s : WorldState) : Except Error (List Policy) :=
  let startKey := "policy:"
  let endKey := "policy:\uffff"
  QueryAllPolicies.loop (GetStateByRange s startKey endKey) []

/-! ## Organizations -/

/-- The loop of QueryAllOrganizations over the results of the range scan. -/
def QueryAllOrganizations.loop :
    List (String × Bytes) → List Organization → Except Error (List Organization)
  | [], orgs => .ok orgs
  | qr :: rest, orgs =>
    match UnmarshalOrganization qr.2 with
    | .error err => .error err
    | .ok o =>
      if o.DocType = "org" then QueryAllOrganizations.loop rest (orgs ++ [o])
      else QueryAllOrganizations.loop rest orgs

def QueryAllOrganizations (s : WorldState) : Except Error (List Organization) :=
  let startKey := "org:"
  let endKey := "org:\uffff"
  QueryAllOrganizations.loop (GetStateByRange s startKey endKey) []

def QueryOrganization (s : WorldState) (orgId : String) : Except Error Organization :=
  let key := "org:" ++ orgId
  match GetState s key with
  | none => .error (.organizationNotFound orgId)
  | some orgJSON => UnmarshalOrganization orgJSON

def QueryOrganizationMembers (s : WorldState) (orgId : String) : Except Error StringSlice :=
  match QueryOrganization s orgId with
  | .error err => .error err
  | .ok org => .ok org.Members

/-! ## Users -/

def CreateUser (s : WorldState)
    (username fullName email role organization passwordHash : String) :
    Option Error × WorldState :=
  let key := "user:" ++ username
  match GetState s key with
  | some _ => (some (.userExists username), s)
  | none =>
    let user : User :=
      { DocType := "user", Username := username, FullName := fullName, Email := email,
        Role := role, Organization := organization, PasswordHash := passwordHash,
        CreatedAt := "auto-generated" }
    (none, PutState s key (MarshalUser user))

def QueryUser (s : WorldState) (username : String) : Except Error User :=
  let key := "user:" ++ username
  match GetState s key with
  | none => .error (.userNotFound username)
  | some userJSON => UnmarshalUser userJSON

/-! ## Cases -/

def CreateCase (ci : ClientIdentity) (s : WorldState)
    (id title description jurisdiction caseType policyId : String) :
    Option Error × WorldState :=
  let key := "case:" ++ id
  match GetState s key with
  | some _ => (some (.caseExists id), s)
  | none =>
    -- Verify policy exists and creator has access
    let admission : Option Error :=
      if policyId ≠ "" then
        match QueryPolicy s policyId with
        | .error err => some (.getPolicy policyId err)
        | .ok policy =>
          match ci.err with
          | some err => some (.clientMSPID err)
          | none =>
            let clientMSPID := ci.mspID
            if !orgAllowed policy.AllowedOrgs.elems clientMSPID then
              some (.organizationNotAllowed clientMSPID policyId)
            else none
      else none
    match admission with
    | some err => (some err, s)
    | none =>
      let clientMSPID := ci.mspID
      let caseObj : Case :=
        { DocType := "case", ID := id, Title := title, Description := description,
          Status := "Open", Jurisdiction := jurisdiction, CaseType := caseType,
          CreatedBy := clientMSPID, CreatedAt := "auto-generated",
          Organization := clientMSPID, PolicyID := policyId }
      (none, PutState s key (MarshalCase caseObj))

def QueryCase (ci : ClientIdentity) (s : WorldState) (id userRole : String) :
    Except Error Case :=
  let key := "case:" ++ id
  match GetState s key with
  | none => .error (.caseNotFound id)
  | some caseJSON =>
    match UnmarshalCase caseJSON with
    | .error err => .error err
    | .ok caseObj =>
      -- If case has a policy, check access
      if caseObj.PolicyID ≠ "" then
        match ci.err with
        | some err => .error (.clientMSPID err)
        | none =>
          let clientMSPID := ci.mspID
          match QueryPolicy s caseObj.PolicyID with
          | .error err => .error (.getPolicy caseObj.PolicyID err)
          | .ok policy =>
            if !(orgAllowed policy.AllowedOrgs.elems clientMSPID
                && roleAllowed policy.AllowedRoles.elems userRole) then
              .error (.accessDenied clientMSPID userRole)
            else .ok caseObj
      else .ok caseObj

/-- The loop of QueryAllCases over the results of the range scan. -/
def QueryAllCases.loop (s : WorldState) (clientMSPID userRole : String) :
    List (String × Bytes) → List Case → Except Error (List Case)
  | [], cases => .ok cases
  | qr :: rest, cases =>
    match UnmarshalCase qr.2 with
    | .error err => .error err
    | .ok c =>
      if c.DocType = "case" then
        -- If case has no policy, include it
        if c.PolicyID = "" then QueryAllCases.loop s clientMSPID userRole rest (cases ++ [c])
        else
          match QueryPolicy s c.PolicyID with
          | .error _ => QueryAllCases.loop s clientMSPID userRole rest cases
          | .ok policy =>
            if orgAllowed policy.AllowedOrgs.elems clientMSPID
                && roleAllowed policy.AllowedRoles.elems userRole then
              QueryAllCases.loop s clientMSPID userRole rest (cases ++ [c])
            else QueryAllCases.loop s clientMSPID userRole rest cases
      else QueryAllCases.loop s clientMSPID userRole rest cases

/-- The argument `filters` only decides whether a warning is logged. -/
def QueryAllCases (ci : ClientIdentity) (s : WorldState) (_filters userRole : String) :
    Except Error (List Case) :=
  let startKey := "case:"
  let endKey := "case:\uffff"
  let resultsIterator := GetStateByRange s startKey endKey
  match ci.err with
  | some err => .error (.clientMSPID err)
  | none => QueryAllCases.loop s ci.mspID userRole resultsIterator []

def DeleteCase (s : WorldState) (id : String) : Option Error × WorldState :=
  let key := "case:" ++ id
  match GetState s key with
  | none => (some (.caseNotExist id), s)
  | some _ => (none, DelState s key)

/-! ## Records -/

def CreateRecord (s : WorldState)
    (id caseId recordType fileHash offChainUri ownerOrg createdAt policyId description : String) :
    Option Error × WorldState :=
  let key := "record:" ++ id
  match GetState s key with
  | some _ => (some (.recordExists id), s)
  | none =>
    let rec_ : Record :=
      { DocType := "record", ID := id, CaseID := caseId, RecordType := recordType,
        FileHash := fileHash, OffChainURI := offChainUri, OwnerOrg := ownerOrg,
        CreatedAt := createdAt, PolicyID := policyId, Description := description }
    (none, PutState s key (MarshalRecord rec_))

def QueryRecord (ci : ClientIdentity) (s : WorldState) (id userRole : String) :
    Except Error Record :=
  let key := "record:" ++ id
  match GetState s key with
  | none => .error (.recordNotFound id)
  | some recJSON =>
    match UnmarshalRecord recJSON with
    | .error err => .error err
    | .ok rec_ =>
      -- Get client org and role for policy check
      match ci.err with
      | some err => .error (.clientMSPID err)
      | none =>
        let clientMSPID := ci.mspID
        -- Get the policy
        if rec_.PolicyID = "" then .error (.recordNoPolicy id)
        else
          match QueryPolicy s rec_.PolicyID with
          | .error err => .error (.getPolicy rec_.PolicyID err)
          | .ok policy =>
            if !(orgAllowed policy.AllowedOrgs.elems clientMSPID
                && roleAllowed policy.AllowedRoles.elems userRole) then
              .error (.accessDenied clientMSPID userRole)
            else .ok rec_

/-- The loop of QueryRecordsByCase over the results of the range scan. -/
def QueryRecordsByCase.loop (s : WorldState) (clientMSPID caseId : String) :
    List (String × Bytes) → List Record → Except Error (List Record)
  | [], records => .ok records
  | qr :: rest, records =>
    match UnmarshalRecord qr.2 with
    | .error err => .error err
    | .ok r =>
      -- Manual in-memory filtering
      if r.DocType = "record" && r.CaseID = caseId then
        if r.PolicyID = "" then QueryRecordsByCase.loop s clientMSPID caseId rest records
        else
          match QueryPolicy s r.PolicyID with
          | .error _ => QueryRecordsByCase.loop s clientMSPID caseId rest records
          | .ok policy =>
            let hasAccess := orgAllowed policy.AllowedOrgs.elems clientMSPID
            if hasAccess then QueryRecordsByCase.loop s clientMSPID caseId rest (records ++ [r])
            else QueryRecordsByCase.loop s clientMSPID caseId rest records
      else QueryRecordsByCase.loop s clientMSPID caseId rest records

def QueryRecordsByCase (ci : ClientIdentity) (s : WorldState) (caseId : String) :
    Except Error (List Record) :=
  let startKey := "record:"
  let endKey := "record:\uffff"
  let resultsIterator := GetStateByRange s startKey endKey
  match ci.err with
  | some err => .error (.clientMSPID err)
  | none => QueryRecordsByCase.loop s ci.mspID caseId resultsIterator []

/-- The loop of QueryRecords over the results of the range scan. -/
def QueryRecords.loop (s : WorldState) (clientMSPID : String) :
    List (String × Bytes) → List Record → Except Error (List Record)
  | [], records => .ok records
  | qr :: rest, records =>
    match UnmarshalRecord qr.2 with
    | .error err => .error err
    | .ok r =>
      if r.DocType = "record" then
        if r.PolicyID = "" then QueryRecords.loop s clientMSPID rest records
        else
          match QueryPolicy s r.PolicyID with
          | .error _ => QueryRecords.loop s clientMSPID rest records
          | .ok policy =>
            let hasAccess := orgAllowed policy.AllowedOrgs.elems clientMSPID
            if hasAccess then QueryRecords.loop s clientMSPID rest (records ++ [r])
            else QueryRecords.loop s clientMSPID rest records
      else QueryRecords.loop s clientMSPID rest records

/-- The argument `searchJSON` only decides whether a warning is logged. -/
def QueryRecords (ci : ClientIdentity) (s : WorldState) (_searchJSON : String) :
    Except Error (List Record) :=
  let startKey := "record:"
  let endKey := "record:\uffff"
  let resultsIterator := GetStateByRange s startKey endKey
  match ci.err with
  | some err => .error (.clientMSPID err)
  | none => QueryRecords.loop s ci.mspID resultsIterator []

def UpdateRecordMetadata (s : WorldState) (id : String) (metadataJSON : Bytes) :
    Option Error × WorldState :=
  let key := "record:" ++ id
  match GetState s key with
  | none => (some (.recordNotFound id), s)
  | some recJSON =>
    match UnmarshalRecord recJSON with
    | .error err => (some err, s)
    | .ok rec0 =>
      match UnmarshalUpdates metadataJSON with
      | none => (some .metadataJSON, s)
      | some updates =>
        let rec1 := match updates.getString "policyId" with
          | some v => { rec0 with PolicyID := v }
          | none => rec0
        let rec2 := match updates.getString "recordType" with
          | some v => { rec1 with RecordType := v }
          | none => rec1
        let rec3 := match updates.getString "ownerOrg" with
          | some v => { rec2 with OwnerOrg := v }
          | none => rec2
        let rec4 := match updates.getString "description" with
          | some v => { rec3 with Description := v }
          | none => rec3
        (none, PutState s key (MarshalRecord rec4))

/-! ## Notions of the statements -/

/-- The value under the case key of the id decodes to the Case. -/
def StoredCase (s : WorldState) (id : String) (c : Case) : Prop :=
  ∃ caseJSON, GetState s ("case:" ++ id) = some caseJSON ∧ UnmarshalCase caseJSON = .ok c

/-- The value under the record key of the id decodes to the Record. -/
def StoredRecord (s : WorldState) (id : String) (r : Record) : Prop :=
  ∃ recJSON, GetState s ("record:" ++ id) = some recJSON ∧ UnmarshalRecord recJSON = .ok r

/-- The value under the policy key of the id decodes to the Policy. -/
def StoredPolicy (s : WorldState) (policyId : String) (p : Policy) : Prop :=
  ∃ policyJSON,
    GetState s ("policy:" ++ policyId) = some policyJSON ∧ UnmarshalPolicy policyJSON = .ok p

/-- The record after a metadata update with the map `m`: each of policyId, recordType, ownerOrg
and description takes the string the map has under that name, if it has one; every other field
stays. -/
def mergeMetadata (r : Record) (m : Updates) : Record :=
  { r with
    PolicyID := (m.getString "policyId").getD r.PolicyID
    RecordType := (m.getString "recordType").getD r.RecordType
    OwnerOrg := (m.getString "ownerOrg").getD r.OwnerOrg
    Description := (m.getString "description").getD r.Description }

/-- In the words of C5: the metadata object m has the key with the string value x. Of several
members with one key the last is the value of the key. -/
def HasString (m : List (String × JSON)) (key x : String) : Prop :=
  ∃ front back, m = front ++ (key, JSON.str x) :: back ∧ ∀ v, (key, v) ∉ back

/-- In the words of C5: a field with the value `old` before and `new` afterwards is replaced by
the value of m exactly when m has the key with a string value. -/
def ReplacedBy (m : List (String × JSON)) (key old new : String) : Prop :=
  (∀ x, HasString m key x → new = x) ∧ ((∀ x, ¬ HasString m key x) → new = old)

/-- In the words of C5: `r2` equals r with each of the four fields policyId, recordType,
ownerOrg and description replaced by the value of m exactly when m has that key with a string
value, and all other fields unchanged. -/
def MergedRecord (r : Record) (m : List (String × JSON)) (r2 : Record) : Prop :=
  ReplacedBy m "policyId" r.PolicyID r2.PolicyID ∧
  ReplacedBy m "recordType" r.RecordType r2.RecordType ∧
  ReplacedBy m "ownerOrg" r.OwnerOrg r2.OwnerOrg ∧
  ReplacedBy m "description" r.Description r2.Description ∧
  r2.DocType = r.DocType ∧ r2.ID = r.ID ∧ r2.CaseID = r.CaseID ∧ r2.FileHash = r.FileHash ∧
  r2.OffChainURI = r.OffChainURI ∧ r2.CreatedAt = r.CreatedAt

/-- The common shape of the loops of the listing operations: decode each scanned value, stop
at the first value that does not decode, append the decoded values that pass the test. -/
def scanLoop {α : Type} (decode : Bytes → Except Error α) (keep : α → Bool) :
    List (String × Bytes) → List α → Except Error (List α)
  | [], acc => .ok acc
  | qr :: rest, acc =>
    match decode qr.2 with
    | .error err => .error err
    | .ok x =>
      if keep x then scanLoop decode keep rest (acc ++ [x])
      else scanLoop decode keep rest acc

/-- The test of the loop of QueryAllCases on a decoded case. -/
def keepCase (s : WorldState) (clientMSPID userRole : String) (c : Case) : Bool :=
  decide (c.DocType = "case") &&
    (decide (c.PolicyID = "") ||
      match QueryPolicy s c.PolicyID with
      | .error _ => false
      | .ok policy =>
        orgAllowed policy.AllowedOrgs.elems clientMSPID
          && roleAllowed policy.AllowedRoles.elems userRole)

/-- The test of the loop of QueryRecordsByCase on a decoded record. -/
def keepRecordOfCase (s : WorldState) (clientMSPID caseId : String) (r : Record) : Bool :=
  (decide (r.DocType = "record") && decide (r.CaseID = caseId)) &&
    (!decide (r.PolicyID = "") &&
      match QueryPolicy s r.PolicyID with
      | .error _ => false
      | .ok policy => orgAllowed policy.AllowedOrgs.elems clientMSPID)

/-- The test of the loop of QueryRecords on a decoded record. -/
def keepRecord (s : WorldState) (clientMSPID : String) (r : Record) : Bool :=
  decide (r.DocType = "record") &&
    (!decide (r.PolicyID = "") &&
      match QueryPolicy s r.PolicyID with
      | .error _ => false
      | .ok policy => orgAllowed policy.AllowedOrgs.elems clientMSPID)

/-- What a listing `out` of the scanned entries `scan` has to satisfy: every listed document
has the tag `docType`; the listed documents are the decoded values of a subsequence of the
scan, taken in the order of the scan, with keys strictly ascending; and where each of these
entries sits under the key of its own identifier, the identifiers are strictly ascending. -/
def OrderedListing {α : Type} (scan : List (String × Bytes)) (decode : Bytes → Except Error α)
    (tag ident : α → String) (keyHead docType : String) (out : List α) : Prop :=
  (∀ x ∈ out, tag x = docType) ∧
  ∃ es : List (String × Bytes), es.Sublist scan ∧ WorldState.Sorted es ∧
    List.Forall₂ (fun e x => decode e.2 = .ok x) es out ∧
    ((∀ e ∈ es, ∀ x, decode e.2 = .ok x → e.1 = keyHead ++ ident x) →
      out.Pairwise (fun a b => keyLt (ident a) (ident b) = true))

/-- The documents of a range scan: the decoded values in the order of the scan, or the error
of the first value that does not decode. -/
def decodeScan {α : Type} (decode : Bytes → Except Error α) :
    List (String × Bytes) → Except Error (List α)
  | [] => .ok []
  | qr :: rest =>
    match decode qr.2 with
    | .error err => .error err
    | .ok x =>
      match decodeScan decode rest with
      | .error err => .error err
      | .ok xs => .ok (x :: xs)

/-- Two outcomes of a policy lookup that a check of the organization alone cannot tell apart:
both fail, or both give a policy with the same allowedOrgs. -/
def SameOrgs : Except Error Policy → Except Error Policy → Prop
  | .ok p, .ok q => p.AllowedOrgs.elems = q.AllowedOrgs.elems
  | .error _, .error _ => True
  | _, _ => False

/-- One invocation of the chaincode: the operation and its arguments. -/
inductive Invocation where
  | createPolicy (policyId : String) (categoriesJSON allowedOrgsJSON allowedRolesJSON : Bytes)
  | queryPolicy (policyId : String)
  | queryAllPolicies
  | queryAllOrganizations
  | queryOrganization (orgId : String)
  | queryOrganizationMembers (orgId : String)
  | createUser (username fullName email role organization passwordHash : String)
  | queryUser (username : String)
  | createCase (id title description jurisdiction caseType policyId : String)
  | queryCase (id userRole : String)
  | queryAllCases (filters userRole : String)
  | deleteCase (id : String)
  | createRecord
      (id caseId recordType fileHash offChainUri ownerOrg createdAt policyId description : String)
  | queryRecord (id userRole : String)
  | queryRecordsByCase (caseId : String)
  | queryRecords (searchJSON : String)
  | updateRecordMetadata (id : String) (metadataJSON : Bytes)

/-- The world state after an invocation by the client: the state the operation returns where
it calls PutState or DelState, and the state as it was for the queries, which call neither. -/
def Invocation.after (ci : ClientIdentity) (s : WorldState) : Invocation → WorldState
  | .createPolicy policyId categoriesJSON allowedOrgsJSON allowedRolesJSON =>
    (CreatePolicy ci s policyId categoriesJSON allowedOrgsJSON allowedRolesJSON).2
  | .createUser username fullName email role organization passwordHash =>
    (CreateUser s username fullName email role organization passwordHash).2
  | .createCase id title description jurisdiction caseType policyId =>
    (CreateCase ci s id title description jurisdiction caseType policyId).2
  | .deleteCase id => (DeleteCase s id).2
  | .createRecord id caseId recordType fileHash offChainUri ownerOrg createdAt policyId
      description =>
    (CreateRecord s id caseId recordType fileHash offChainUri ownerOrg createdAt policyId
      description).2
  | .updateRecordMetadata id metadataJSON => (UpdateRecordMetadata s id metadataJSON).2
  | _ => s

/-- The key is the key of a document of the type with this key head ("policy:", "org:",
"user:", "case:", "record:"). -/
def KeyOfType (head key : String) : Prop := ∃ id, key = head ++ id

/-- The case with the tag "case", the given id, title, description, jurisdiction, caseType and
policyId, the status "Open", org as createdBy and as organization, and the placeholder of
createdAt. -/
def createdCase (org id title description jurisdiction caseType policyId : String) : Case :=
  { DocType := "case", ID := id, Title := title, Description := description,
    Status := "Open", Jurisdiction := jurisdiction, CaseType := caseType,
    CreatedBy := org, CreatedAt := "auto-generated", Organization := org,
    PolicyID := policyId }

/-- The record with the tag "record" and the nine arguments of CreateRecord as its fields. -/
def createdRecord
    (id caseId recordType fileHash offChainUri ownerOrg createdAt policyId description : String) :
    Record :=
  { DocType := "record", ID := id, CaseID := caseId, RecordType := recordType,
    FileHash := fileHash, OffChainURI := offChainUri, OwnerOrg := ownerOrg,
    CreatedAt := createdAt, PolicyID := policyId, Description := description }

/-- In the words of C23: a result of QueryRecords restricted, in the same order, to the records
whose caseId is the given one; an error stays the error. -/
def restrictToCase (caseId : String) (result : Except Error (List Record)) :
    Except Error (List Record) :=
  match result with
  | .error err => .error err
  | .ok records => .ok (records.filter fun r => decide (r.CaseID = caseId))

/-- In the words of C22: of the cases of the list, in the order of the list, those for which
QueryCase by the client, for the id of the case and the role, succeeds, each as QueryCase
returns it. -/
def readOneByOne (ci : ClientIdentity) (s : WorldState) (role : String) :
    List Case → List Case
  | [] => []
  | c :: rest =>
    match QueryCase ci s c.ID role with
    | .ok found => found :: readOneByOne ci s role rest
    | .error _ => readOneByOne ci s role rest

/-- An entry of the world state as a successful CreateCase writes it: under the case key of
the id, the marshalled case with that id and the other arguments, the status "Open" and the
MSP id of some caller. -/
def WrittenByCreateCase (e : String × Bytes) : Prop :=
  ∃ org id title description jurisdiction caseType policyId,
    e = ("case:" ++ id,
      MarshalCase (createdCase org id title description jurisdiction caseType policyId))

/-- The world state after the invocations of the list, each by its client, one after the
other, from the world state `s`. -/
def runAll (s : WorldState) : List (ClientIdentity × Invocation) → WorldState
  | [] => s
  | (ci, op) :: rest => runAll (op.after ci s) rest

/-- The referential integrity of cases: whatever a case key holds is a marshalled case, and if
its policyId is not empty, a policy is stored under it that has the createdBy of the case or
the wildcard in allowedOrgs. -/
def CasesBound (s : WorldState) : Prop :=
  ∀ id v, GetState s ("case:" ++ id) = some v →
    ∃ c, v = MarshalCase c ∧
      (c.PolicyID ≠ "" → ∃ P, StoredPolicy s c.PolicyID P ∧
        (c.CreatedBy ∈ P.AllowedOrgs.elems ∨ "*" ∈ P.AllowedOrgs.elems))

/-! ## States of the scenarios -/

def demoPolicy : Policy :=
  { DocType := "policy", PolicyID := "P1", Categories := some ["evidence"],
    AllowedOrgs := some ["OrgA"], AllowedRoles := some ["Investigator"],
    CreatedAt := "auto-generated", CreatedBy := "OrgA" }

/-- A policy that allows no role. -/
def closedPolicy : Policy :=
  { DocType := "policy", PolicyID := "P0", Categories := none,
    AllowedOrgs := some ["OrgA"], AllowedRoles := none,
    CreatedAt := "auto-generated", CreatedBy := "OrgA" }

/-- A policy that allows every organization and every role. -/
def wildcardPolicy : Policy :=
  { DocType := "policy", PolicyID := "PW", Categories := none,
    AllowedOrgs := some ["*"], AllowedRoles := some ["*"],
    CreatedAt := "auto-generated", CreatedBy := "OrgA" }

/-- A case without a policy. -/
def openCase : Case :=
  { DocType := "case", ID := "C0", Title := "Fraud", Description := "a fraud",
    Status := "Open", Jurisdiction := "Delhi", CaseType := "civil", CreatedBy := "OrgA",
    CreatedAt := "auto-generated", Organization := "OrgA", PolicyID := "" }

def demoCase : Case :=
  { DocType := "case", ID := "C1", Title := "Theft", Description := "a theft",
    Status := "Open", Jurisdiction := "Delhi", CaseType := "criminal", CreatedBy := "OrgA",
    CreatedAt := "auto-generated", Organization := "OrgA", PolicyID := "P1" }

/-- A record without a policy. -/
def openRecord : Record :=
  { DocType := "record", ID := "R0", CaseID := "C0", RecordType := "note", FileHash := "000",
    OffChainURI := "ipfs://000", OwnerOrg := "OrgA", CreatedAt := "2024-01-01",
    PolicyID := "", Description := "a note" }

def demoRecord : Record :=
  { DocType := "record", ID := "R1", CaseID := "C1", RecordType := "photo", FileHash := "abc",
    OffChainURI := "ipfs://abc", OwnerOrg := "OrgA", CreatedAt := "2024-01-01",
    PolicyID := "P1", Description := "a photo" }

/-- The state after three policies, three cases, three records and a user are created. -/
def demoState : WorldState :=
  let s1 := (CreatePolicy (caller "OrgA") [] "P1" (some (.arr [.str "evidence"]))
    (some (.arr [.str "OrgA"])) (some (.arr [.str "Investigator"]))).2
  let s2 := (CreatePolicy (caller "OrgA") s1 "P0" (some .null)
    (some (.arr [.str "OrgA"])) (some .null)).2
  let s3 := (CreatePolicy (caller "OrgA") s2 "PW" (some .null)
    (some (.arr [.str "*"])) (some (.arr [.str "*"]))).2
  let s4 := (CreateCase (caller "OrgA") s3 "C0" "Fraud" "a fraud" "Delhi" "civil" "").2
  let s5 := (CreateCase (caller "OrgA") s4 "C1" "Theft" "a theft" "Delhi" "criminal" "P1").2
  let s6 := (CreateCase (caller "OrgA") s5 "C2" "Arson" "an arson" "Delhi" "criminal" "P0").2
  let s7 := (CreateRecord s6 "R0" "C0" "note" "000" "ipfs://000" "OrgA" "2024-01-01" ""
    "a note").2
  let s8 := (CreateRecord s7 "R1" "C1" "photo" "abc" "ipfs://abc" "OrgA" "2024-01-01" "P1"
    "a photo").2
  let s9 := (CreateRecord s8 "R2" "C2" "video" "def" "ipfs://def" "OrgA" "2024-01-02" "P0"
    "a video").2
  (CreateUser s9 "alice" "Alice" "alice@example.org" "Investigator" "OrgA" "$2a$10$hash").2

/-- Two cases, each stored under the key of the other's identifier. -/
def swappedState : WorldState :=
  [("case:a", MarshalCase { openCase with ID := "b" }),
   ("case:b", MarshalCase { openCase with ID := "a" })]

/-- The state after one case whose identifier is a character beyond U+FFFF is created. -/
def astralState : WorldState :=
  (CreateCase (caller "OrgA") [] "😀" "Fraud" "a fraud" "Delhi" "civil" "").2

/-- The state of the scenarios with a value that is not JSON under a case key and a JSON
array, which is no record, under a record key. -/
def corruptState : WorldState :=
  PutState (PutState demoState "case:C3" none) "record:R3" (some (.arr []))

/-- The state of the scenarios with the roles of policy P1 taken away. -/
def rolelessState : WorldState :=
  PutState demoState "policy:P1" (MarshalPolicy { demoPolicy with AllowedRoles := none })

/-- A record bound to policy P0, which names OrgA alone and allows no role. -/
def closedRecord : Record :=
  { DocType := "record", ID := "R2", CaseID := "C2", RecordType := "video", FileHash := "def",
    OffChainURI := "ipfs://def", OwnerOrg := "OrgA", CreatedAt := "2024-01-02",
    PolicyID := "P0", Description := "a video" }

/-- A case bound to policy P0. -/
def closedCase : Case :=
  { DocType := "case", ID := "C2", Title := "Arson", Description := "an arson",
    Status := "Open", Jurisdiction := "Delhi", CaseType := "criminal", CreatedBy := "OrgA",
    CreatedAt := "auto-generated", Organization := "OrgA", PolicyID := "P0" }

/-- A case that names the policy P9, which is not stored. -/
def danglingCase : Case :=
  { DocType := "case", ID := "C4", Title := "Libel", Description := "a libel",
    Status := "Open", Jurisdiction := "Delhi", CaseType := "civil", CreatedBy := "OrgA",
    CreatedAt := "auto-generated", Organization := "OrgA", PolicyID := "P9" }

/-- The state of the scenarios with a case and a record that name the policy P9, which is not
stored. -/
def danglingState : WorldState :=
  (CreateRecord (PutState demoState "case:C4" (MarshalCase danglingCase))
    "R4" "C1" "audio" "fff" "ipfs://fff" "OrgA" "2024-01-03" "P9" "a tape").2

/-- A client identity whose MSP id cannot be read. -/
def unresolved : ClientIdentity := ⟨"", some "no identity"⟩

/-- The state of the scenarios with a case and a record whose id is stored as a number. -/
def mistypedState : WorldState :=
  PutState (PutState demoState "case:C3" (some (.obj [("id", .num "5")])))
    "record:R3" (some (.obj [("id", .num "5")]))

/-- The invocations of the scenario, all by OrgA, that lead from the empty store to
demoState. -/
def demoInvocations : List (ClientIdentity × Invocation) :=
  [(caller "OrgA", .createPolicy "P1" (some (.arr [.str "evidence"]))
      (some (.arr [.str "OrgA"])) (some (.arr [.str "Investigator"]))),
   (caller "OrgA", .createPolicy "P0" (some .null) (some (.arr [.str "OrgA"])) (some .null)),
   (caller "OrgA", .createPolicy "PW" (some .null) (some (.arr [.str "*"]))
      (some (.arr [.str "*"]))),
   (caller "OrgA", .createCase "C0" "Fraud" "a fraud" "Delhi" "civil" ""),
   (caller "OrgA", .createCase "C1" "Theft" "a theft" "Delhi" "criminal" "P1"),
   (caller "OrgA", .createCase "C2" "Arson" "an arson" "Delhi" "criminal" "P0"),
   (caller "OrgA", .createRecord "R0" "C0" "note" "000" "ipfs://000" "OrgA" "2024-01-01" ""
      "a note"),
   (caller "OrgA", .createRecord "R1" "C1" "photo" "abc" "ipfs://abc" "OrgA" "2024-01-01"
      "P1" "a photo"),
   (caller "OrgA", .createRecord "R2" "C2" "video" "def" "ipfs://def" "OrgA" "2024-01-02"
      "P0" "a video"),
   (caller "OrgA", .createUser "alice" "Alice" "alice@example.org" "Investigator" "OrgA"
      "$2a$10$hash")]

/-! ## Lemmas on the policy check, the store and the codec -/

theorem orgAllowed_iff (xs : List String) (org : String) :
    orgAllowed xs org = true ↔ org ∈ xs ∨ "*" ∈ xs := by
  induction xs with
  | nil => simp [orgAllowed]
  | cons o rest ih =>
    simp only [orgAllowed, List.mem_cons]
    by_cases h1 : o = org
    · simp [h1]
    · by_cases h2 : o = "*"
      · simp [h2]
      · have h1' : ¬ org = o := fun h => h1 h.symm
        have h2' : ¬ "*" = o := fun h => h2 h.symm
        simp [h1, h2, h1', h2', ih]

theorem roleAllowed_iff (xs : List String) (role : String) :
    roleAllowed xs role = true ↔ role ∈ xs ∨ "*" ∈ xs := by
  induction xs with
  | nil => simp [roleAllowed]
  | cons o rest ih =>
    simp only [roleAllowed, List.mem_cons]
    by_cases h1 : o = role
    · simp [h1]
    · by_cases h2 : o = "*"
      · simp [h2]
      · have h1' : ¬ role = o := fun h => h1 h.symm
        have h2' : ¬ "*" = o := fun h => h2 h.symm
        simp [h1, h2, h1', h2', ih]

theorem QueryPolicy_of_stored {s : WorldState} {policyId : String} {p : Policy}
    (h : StoredPolicy s policyId p) : QueryPolicy s policyId = .ok p := by
  obtain ⟨b, hb, hp⟩ := h
  simp [QueryPolicy, hb, hp]

theorem stored_of_QueryPolicy {s : WorldState} {policyId : String} {p : Policy}
    (h : QueryPolicy s policyId = .ok p) : StoredPolicy s policyId p := by
  unfold QueryPolicy at h
  cases hg : GetState s ("policy:" ++ policyId) with
  | none => simp [hg] at h
  | some b =>
    simp only [hg] at h
    exact ⟨b, hg, h⟩

/-- Marshal followed by Unmarshal gives the record back. -/
theorem UnmarshalRecord_MarshalRecord (r : Record) :
    UnmarshalRecord (MarshalRecord r) = .ok r := rfl

/-- Marshal followed by Unmarshal gives the case back. -/
theorem UnmarshalCase_MarshalCase (c : Case) :
    UnmarshalCase (MarshalCase c) = .ok c := rfl

/-- Marshal followed by Unmarshal gives the user back. -/
theorem UnmarshalUser_MarshalUser (u : User) :
    UnmarshalUser (MarshalUser u) = .ok u := rfl

theorem GetState_PutState_same (s : WorldState) (key : String) (value : Bytes) :
    GetState (PutState s key value) key = some value := by
  induction s with
  | nil => simp [PutState, GetState]
  | cons e rest ih =>
    obtain ⟨k, v⟩ := e
    simp only [PutState]
    split_ifs with h1 h2
    · simp [GetState]
    · simp [GetState]
    · simp [GetState, h1, ih]

theorem GetState_PutState_other (s : WorldState) (key key2 : String) (value : Bytes)
    (h : key2 ≠ key) : GetState (PutState s key value) key2 = GetState s key2 := by
  induction s with
  | nil => simp [PutState, GetState, h.symm]
  | cons e rest ih =>
    obtain ⟨k, v⟩ := e
    simp only [PutState]
    split_ifs with h1 h2
    · subst h1
      simp [GetState, h.symm]
    · simp [GetState, h.symm]
    · simp [GetState, ih]

theorem Updates_get_none (m : Updates) (key : String) (h : ∀ v, (key, v) ∉ m) :
    m.get key = none := by
  induction m with
  | nil => rfl
  | cons e rest ih =>
    obtain ⟨k, v⟩ := e
    have hrest : ∀ w, (key, w) ∉ rest := fun w hw => h w (List.mem_cons_of_mem _ hw)
    have hk : k ≠ key := by
      rintro rfl
      exact h v (List.mem_cons_self _ _)
    simp [Updates.get, ih hrest, hk]

theorem Updates_getString_none (m : Updates) (key : String) (h : ∀ v, (key, v) ∉ m) :
    m.getString key = none := by
  simp [Updates.getString, Updates_get_none m key h]

theorem UpdateRecordMetadata_eq (s : WorldState) (id : String) (r : Record) (m : Updates)
    (recJSON : Bytes) (hg : GetState s ("record:" ++ id) = some recJSON)
    (hr : UnmarshalRecord recJSON = .ok r) (hm : objectInterface m = true) :
    UpdateRecordMetadata s id (some (.obj m))
      = (none, PutState s ("record:" ++ id) (MarshalRecord (mergeMetadata r m))) := by
  simp only [UpdateRecordMetadata, hg, hr, UnmarshalUpdates, hm, if_true, mergeMetadata]
  cases m.getString "policyId" <;> cases m.getString "recordType" <;>
    cases m.getString "ownerOrg" <;> cases m.getString "description" <;> rfl

theorem UpdateRecordMetadata_rejected (s : WorldState) (id : String) (r : Record)
    (m : Updates) (recJSON : Bytes) (hg : GetState s ("record:" ++ id) = some recJSON)
    (hr : UnmarshalRecord recJSON = .ok r) (hm : objectInterface m = false) :
    UpdateRecordMetadata s id (some (.obj m)) = (some .metadataJSON, s) := by
  simp [UpdateRecordMetadata, hg, hr, UnmarshalUpdates, hm]

theorem Updates_get_of_member (m : Updates) (key : String) (v : JSON) (h : (key, v) ∈ m) :
    ∃ w, m.get key = some w := by
  induction m with
  | nil => cases h
  | cons e rest ih =>
    obtain ⟨k, u⟩ := e
    cases hrest : Updates.get rest key with
    | some w => exact ⟨w, by simp [Updates.get, hrest]⟩
    | none =>
      rcases List.mem_cons.1 h with heq | hmem
      · cases heq
        exact ⟨v, by simp [Updates.get, hrest]⟩
      · obtain ⟨w, hw⟩ := ih hmem
        rw [hrest] at hw
        cases hw

theorem Updates_mem_of_get (m : Updates) (key : String) (w : JSON)
    (h : m.get key = some w) :
    ∃ front back, m = front ++ (key, w) :: back ∧ ∀ v, (key, v) ∉ back := by
  induction m with
  | nil => cases h
  | cons e rest ih =>
    obtain ⟨k, v⟩ := e
    simp only [Updates.get] at h
    cases hrest : Updates.get rest key with
    | some w2 =>
      rw [hrest] at h
      cases h
      obtain ⟨front, back, hm, hback⟩ := ih hrest
      exact ⟨(k, v) :: front, back, by rw [hm, List.cons_append], hback⟩
    | none =>
      rw [hrest] at h
      by_cases hk : k = key
      · simp only [hk, if_true] at h
        cases h
        subst hk
        refine ⟨[], rest, rfl, fun v2 hv2 => ?_⟩
        obtain ⟨w, hw⟩ := Updates_get_of_member rest k v2 hv2
        rw [hrest] at hw
        cases hw
      · simp [hk] at h

theorem Updates_get_of_mem (front back : Updates) (key : String) (w : JSON)
    (hback : ∀ v, (key, v) ∉ back) :
    Updates.get (front ++ (key, w) :: back) key = some w := by
  induction front with
  | nil => simp [Updates.get, Updates_get_none back key hback]
  | cons e front ih =>
    obtain ⟨k, v⟩ := e
    simp [Updates.get, ih]

/-- The type assertion finds the string x under the key exactly when the last member of the
object with the key is the string x. -/
theorem Updates_getString_iff (m : Updates) (key x : String) :
    m.getString key = some x ↔ HasString m key x := by
  constructor
  · intro h
    simp only [Updates.getString] at h
    cases hg : m.get key with
    | none => simp [hg] at h
    | some w =>
      rw [hg] at h
      cases w with
      | str y =>
        simp only [Option.some.injEq] at h
        subst h
        exact Updates_mem_of_get m key _ hg
      | _ => simp at h
  · rintro ⟨front, back, rfl, hback⟩
    simp [Updates.getString, Updates_get_of_mem front back key _ hback]

theorem replacedBy_getString (m : Updates) (key old : String) :
    ReplacedBy m key old ((m.getString key).getD old) := by
  constructor
  · intro x hx
    rw [(Updates_getString_iff m key x).2 hx]
    rfl
  · intro hnone
    cases hg : m.getString key with
    | none => rfl
    | some x => exact absurd ((Updates_getString_iff m key x).1 hg) (hnone x)

/-- The record the code writes is the record of the words of C5. -/
theorem mergeMetadata_merged (r : Record) (m : Updates) :
    MergedRecord r m (mergeMetadata r m) :=
  ⟨replacedBy_getString m _ _, replacedBy_getString m _ _, replacedBy_getString m _ _,
   replacedBy_getString m _ _, rfl, rfl, rfl, rfl, rfl, rfl⟩

theorem convertNumber_in_range : convertNumber "7" = true := by
  have h : readFloat "7" = some (7, 0, 0) := rfl
  simp only [convertNumber, h]
  norm_num [float64Limit]

theorem objectInterface_in_range :
    objectInterface [("description", .str "x"), ("colour", .num "7")] = true := by
  simp [objectInterface, valueInterface, convertNumber_in_range]

theorem convertNumber_out_of_range : convertNumber "1e400" = false := by
  have h : readFloat "1e400" = some (1, 400, 0) := rfl
  simp only [convertNumber, h]
  norm_num [float64Limit]

/-! ## Lemmas on the key order and the listing loops -/

theorem bytesLt_append_left (p a b : List Nat) :
    bytesLt (p ++ a) (p ++ b) = bytesLt a b := by
  induction p with
  | nil => rfl
  | cons x p ih => simp [bytesLt, ih]

theorem utf8_append (a b : String) : utf8 (a ++ b) = utf8 a ++ utf8 b := by
  simp [utf8, String.data_append]

theorem keyLt_append_left (p a b : String) : keyLt (p ++ a) (p ++ b) = keyLt a b := by
  simp [keyLt, utf8_append, bytesLt_append_left]

theorem GetStateByRange_sorted (s : WorldState) (hs : s.Sorted) (a b : String) :
    WorldState.Sorted (GetStateByRange s a b) :=
  List.Pairwise.sublist (List.filter_sublist _) hs

theorem forall₂_exists_left {α β : Type} {R : α → β → Prop} {es : List α} {xs : List β}
    (h : List.Forall₂ R es xs) : ∀ x ∈ xs, ∃ e ∈ es, R e x := by
  induction h with
  | nil => intro x hx; cases hx
  | cons hr _ ih =>
    intro x hx
    rcases List.mem_cons.1 hx with rfl | hx
    · exact ⟨_, List.mem_cons_self _ _, hr⟩
    · obtain ⟨e, he, hre⟩ := ih x hx
      exact ⟨e, List.mem_cons_of_mem _ he, hre⟩

/-- A listing loop that ends without an error has appended, in the order of the scan, the
decoded values of the scanned entries that pass its test. -/
theorem scanLoop_ok {α : Type} (decode : Bytes → Except Error α) (keep : α → Bool)
    (l : List (String × Bytes)) :
    ∀ (acc out : List α), scanLoop decode keep l acc = .ok out →
      ∃ es xs, es.Sublist l ∧ out = acc ++ xs ∧
        List.Forall₂ (fun e x => decode e.2 = .ok x ∧ keep x = true) es xs := by
  induction l with
  | nil =>
    intro acc out h
    simp only [scanLoop, Except.ok.injEq] at h
    exact ⟨[], [], List.Sublist.refl _, by simp [h], List.Forall₂.nil⟩
  | cons qr rest ih =>
    intro acc out h
    simp only [scanLoop] at h
    cases hd : decode qr.2 with
    | error e => simp [hd] at h
    | ok x =>
      simp only [hd] at h
      by_cases hk : keep x = true
      · simp only [hk, if_true] at h
        obtain ⟨es, xs, hsub, hout, hall⟩ := ih _ _ h
        exact ⟨qr :: es, x :: xs, hsub.cons₂ _, by simp [hout],
          List.Forall₂.cons ⟨hd, hk⟩ hall⟩
      · simp only [hk] at h
        obtain ⟨es, xs, hsub, hout, hall⟩ := ih _ _ h
        exact ⟨es, xs, hsub.cons _, hout, hall⟩

theorem identifiers_ascending {α : Type} (decode : Bytes → Except Error α)
    (ident : α → String) (keyHead : String) {es : List (String × Bytes)} {out : List α}
    (hall : List.Forall₂ (fun e x => decode e.2 = .ok x) es out) :
    WorldState.Sorted es →
    (∀ e ∈ es, ∀ x, decode e.2 = .ok x → e.1 = keyHead ++ ident x) →
    out.Pairwise (fun a b => keyLt (ident a) (ident b) = true) := by
  induction hall with
  | nil => intro _ _; exact List.Pairwise.nil
  | @cons e x es xs hex hrest ih =>
    intro hs hkey
    have hs' := List.pairwise_cons.1 hs
    refine List.Pairwise.cons ?_ (ih hs'.2 fun e' he' => hkey e' (List.mem_cons_of_mem _ he'))
    intro y hy
    obtain ⟨e', he', hdec⟩ := forall₂_exists_left hrest y hy
    have h1 := hkey e (List.mem_cons_self _ _) x hex
    have h2 := hkey e' (List.mem_cons_of_mem _ he') y hdec
    have h3 := hs'.1 e' he'
    rw [h1, h2, keyLt_append_left] at h3
    exact h3

theorem scanLoop_listing {α : Type} (decode : Bytes → Except Error α) (keep : α → Bool)
    (tag ident : α → String) (keyHead docType : String)
    (hkeep : ∀ x, keep x = true → tag x = docType)
    (scan : List (String × Bytes)) (hs : WorldState.Sorted scan) (out : List α)
    (h : scanLoop decode keep scan [] = .ok out) :
    OrderedListing scan decode tag ident keyHead docType out := by
  obtain ⟨es, xs, hsub, hout, hall⟩ := scanLoop_ok decode keep scan [] out h
  simp only [List.nil_append] at hout
  subst hout
  have hall' : List.Forall₂ (fun e x => decode e.2 = .ok x) es out :=
    List.Forall₂.imp (fun _ _ h => h.1) hall
  refine ⟨?_, es, hsub, List.Pairwise.sublist hsub hs, hall', ?_⟩
  · intro x hx
    obtain ⟨e, -, -, hk⟩ := forall₂_exists_left hall x hx
    exact hkeep x hk
  · exact identifiers_ascending decode ident keyHead hall' (List.Pairwise.sublist hsub hs)

theorem QueryAllPolicies_loop_eq (l : List (String × Bytes)) :
    ∀ acc, QueryAllPolicies.loop l acc
      = scanLoop UnmarshalPolicy (fun p => decide (p.DocType = "policy")) l acc := by
  induction l with
  | nil => intro acc; rfl
  | cons qr rest ih =>
    intro acc
    simp only [QueryAllPolicies.loop, scanLoop, ih]
    cases hd : UnmarshalPolicy qr.2 with
    | error e => rfl
    | ok p => by_cases h1 : p.DocType = "policy" <;> simp [h1]

theorem QueryAllOrganizations_loop_eq (l : List (String × Bytes)) :
    ∀ acc, QueryAllOrganizations.loop l acc
      = scanLoop UnmarshalOrganization (fun o => decide (o.DocType = "org")) l acc := by
  induction l with
  | nil => intro acc; rfl
  | cons qr rest ih =>
    intro acc
    simp only [QueryAllOrganizations.loop, scanLoop, ih]
    cases hd : UnmarshalOrganization qr.2 with
    | error e => rfl
    | ok p => by_cases h1 : p.DocType = "org" <;> simp [h1]

theorem QueryAllCases_loop_eq (s : WorldState) (org role : String)
    (l : List (String × Bytes)) :
    ∀ acc, QueryAllCases.loop s org role l acc
      = scanLoop UnmarshalCase (keepCase s org role) l acc := by
  induction l with
  | nil => intro acc; rfl
  | cons qr rest ih =>
    intro acc
    simp only [QueryAllCases.loop, scanLoop, ih]
    cases hd : UnmarshalCase qr.2 with
    | error e => rfl
    | ok c =>
      simp only
      by_cases h1 : c.DocType = "case"
      · by_cases h2 : c.PolicyID = ""
        · simp [keepCase, h1, h2]
        · have hk : keepCase s org role c = match QueryPolicy s c.PolicyID with
              | .error _ => false
              | .ok policy => orgAllowed policy.AllowedOrgs.elems org
                  && roleAllowed policy.AllowedRoles.elems role := by
            simp [keepCase, h1, h2]
          rw [hk]
          simp only [h1, h2, if_true, if_false]
          split <;> simp
      · simp [keepCase, h1]

theorem QueryRecordsByCase_loop_eq (s : WorldState) (org caseId : String)
    (l : List (String × Bytes)) :
    ∀ acc, QueryRecordsByCase.loop s org caseId l acc
      = scanLoop UnmarshalRecord (keepRecordOfCase s org caseId) l acc := by
  induction l with
  | nil => intro acc; rfl
  | cons qr rest ih =>
    intro acc
    simp only [QueryRecordsByCase.loop, scanLoop, ih]
    cases hd : UnmarshalRecord qr.2 with
    | error e => rfl
    | ok r =>
      simp only
      by_cases h1 : r.DocType = "record" ∧ r.CaseID = caseId
      · by_cases h2 : r.PolicyID = ""
        · simp [keepRecordOfCase, h1, h2]
        · have hk : keepRecordOfCase s org caseId r = match QueryPolicy s r.PolicyID with
              | .error _ => false
              | .ok policy => orgAllowed policy.AllowedOrgs.elems org := by
            simp [keepRecordOfCase, h1, h2]
          rw [hk]
          simp only [h1, h2, decide_True, Bool.and_self, if_true, if_false]
          split <;> simp
      · have hk : keepRecordOfCase s org caseId r = false := by
          simp only [keepRecordOfCase]
          rcases not_and_or.1 h1 with h | h <;> simp [h]
        have h1' : (decide (r.DocType = "record") && decide (r.CaseID = caseId)) = false := by
          rcases not_and_or.1 h1 with h | h <;> simp [h]
        simp [hk, h1']

theorem QueryRecords_loop_eq (s : WorldState) (org : String)
    (l : List (String × Bytes)) :
    ∀ acc, QueryRecords.loop s org l acc
      = scanLoop UnmarshalRecord (keepRecord s org) l acc := by
  induction l with
  | nil => intro acc; rfl
  | cons qr rest ih =>
    intro acc
    simp only [QueryRecords.loop, scanLoop, ih]
    cases hd : UnmarshalRecord qr.2 with
    | error e => rfl
    | ok r =>
      simp only
      by_cases h1 : r.DocType = "record"
      · by_cases h2 : r.PolicyID = ""
        · simp [keepRecord, h1, h2]
        · have hk : keepRecord s org r = match QueryPolicy s r.PolicyID with
              | .error _ => false
              | .ok policy => orgAllowed policy.AllowedOrgs.elems org := by
            simp [keepRecord, h1, h2]
          rw [hk]
          simp only [h1, h2, if_true, if_false]
          split <;> simp
      · simp [keepRecord, h1]

/-! ## The key order is a strict total order, and the stub keeps the invariant -/

theorem bytesLt_irrefl (a : List Nat) : bytesLt a a = false := by
  induction a with
  | nil => rfl
  | cons x a ih => simp [bytesLt, ih]

theorem bytesLt_trans : ∀ (a b c : List Nat),
    bytesLt a b = true → bytesLt b c = true → bytesLt a c = true
  | _, [], _, h, _ => by simp [bytesLt] at h
  | _, _ :: _, [], _, h => by simp [bytesLt] at h
  | [], _ :: _, _ :: _, _, _ => by simp [bytesLt]
  | x :: a, y :: b, z :: c, h1, h2 => by
    simp only [bytesLt, Bool.or_eq_true, Bool.and_eq_true, decide_eq_true_eq] at h1 h2 ⊢
    rcases h1 with h1 | ⟨h1, h1'⟩
    · rcases h2 with h2 | ⟨h2, _⟩
      · exact Or.inl (by omega)
      · exact Or.inl (by omega)
    · rcases h2 with h2 | ⟨h2, h2'⟩
      · exact Or.inl (by omega)
      · exact Or.inr ⟨by omega, bytesLt_trans a b c h1' h2'⟩

theorem bytesLt_total : ∀ (a b : List Nat), a ≠ b → bytesLt a b = true ∨ bytesLt b a = true
  | [], [], h => absurd rfl h
  | [], _ :: _, _ => Or.inl (by simp [bytesLt])
  | _ :: _, [], _ => Or.inr (by simp [bytesLt])
  | x :: a, y :: b, h => by
    simp only [bytesLt, Bool.or_eq_true, Bool.and_eq_true, decide_eq_true_eq]
    rcases Nat.lt_trichotomy x y with hxy | hxy | hxy
    · exact Or.inl (Or.inl hxy)
    · subst hxy
      have hab : a ≠ b := fun hab => h (by rw [hab])
      rcases bytesLt_total a b hab with h' | h'
      · exact Or.inl (Or.inr ⟨rfl, h'⟩)
      · exact Or.inr (Or.inr ⟨rfl, h'⟩)
    · exact Or.inr (Or.inl hxy)

theorem utf8Rune_append_inj (c d : Nat) (x y : List Nat)
    (h : utf8Rune c ++ x = utf8Rune d ++ y) : c = d ∧ x = y := by
  unfold utf8Rune at h
  split_ifs at h <;>
    simp only [List.cons_append, List.nil_append, List.cons.injEq] at h <;>
    first
      | exact ⟨by omega, h.2⟩
      | exact ⟨by omega, h.2.2⟩
      | exact ⟨by omega, h.2.2.2⟩
      | exact ⟨by omega, h.2.2.2.2⟩
      | (exfalso; omega)

theorem utf8Rune_ne_nil (c : Nat) : utf8Rune c ≠ [] := by
  unfold utf8Rune
  split_ifs <;> simp

theorem Char_toNat_inj {c d : Char} (h : c.toNat = d.toNat) : c = d := by
  have := congrArg Char.ofNat h
  simpa [Char.ofNat_toNat] using this

theorem utf8_chars_inj : ∀ (a b : List Char),
    (a.flatMap fun c => utf8Rune c.toNat) = (b.flatMap fun c => utf8Rune c.toNat) → a = b
  | [], [], _ => rfl
  | [], d :: b, h => by
    simp only [List.flatMap_nil, List.flatMap_cons] at h
    have := utf8Rune_ne_nil d.toNat
    cases hd : utf8Rune d.toNat with
    | nil => exact absurd hd this
    | cons _ _ => rw [hd] at h; simp at h
  | c :: a, [], h => by
    simp only [List.flatMap_nil, List.flatMap_cons] at h
    have := utf8Rune_ne_nil c.toNat
    cases hd : utf8Rune c.toNat with
    | nil => exact absurd hd this
    | cons _ _ => rw [hd] at h; simp at h
  | c :: a, d :: b, h => by
    simp only [List.flatMap_cons] at h
    obtain ⟨h1, h2⟩ := utf8Rune_append_inj _ _ _ _ h
    rw [Char_toNat_inj h1, utf8_chars_inj a b h2]

theorem utf8_inj {a b : String} (h : utf8 a = utf8 b) : a = b :=
  String.ext (utf8_chars_inj _ _ h)

theorem keyLt_irrefl (a : String) : keyLt a a = false := bytesLt_irrefl _

theorem keyLt_trans {a b c : String} (h1 : keyLt a b = true) (h2 : keyLt b c = true) :
    keyLt a c = true := bytesLt_trans _ _ _ h1 h2

theorem keyLt_total {a b : String} (h : a ≠ b) : keyLt a b = true ∨ keyLt b a = true :=
  bytesLt_total _ _ fun hab => h (utf8_inj hab)

theorem PutState_mem (s : WorldState) (key : String) (value : Bytes) (e : String × Bytes)
    (he : e ∈ PutState s key value) : e = (key, value) ∨ e ∈ s := by
  induction s with
  | nil => simpa [PutState] using he
  | cons hd rest ih =>
    obtain ⟨k, v⟩ := hd
    simp only [PutState] at he
    split_ifs at he with h1 h2
    · rcases List.mem_cons.1 he with h | h
      · exact Or.inl h
      · exact Or.inr (List.mem_cons_of_mem _ h)
    · rcases List.mem_cons.1 he with h | h
      · exact Or.inl h
      · exact Or.inr h
    · rcases List.mem_cons.1 he with h | h
      · exact Or.inr (h ▸ List.mem_cons_self _ _)
      · rcases ih h with h | h
        · exact Or.inl h
        · exact Or.inr (List.mem_cons_of_mem _ h)

/-- PutState keeps the keys of the world state in ascending order. -/
theorem PutState_sorted (s : WorldState) (hs : s.Sorted) (key : String) (value : Bytes) :
    WorldState.Sorted (PutState s key value) := by
  induction s with
  | nil => simp [PutState, WorldState.Sorted]
  | cons hd rest ih =>
    obtain ⟨k, v⟩ := hd
    have hs' := List.pairwise_cons.1 hs
    simp only [PutState]
    split_ifs with h1 h2
    · subst h1
      exact List.pairwise_cons.2 ⟨hs'.1, hs'.2⟩
    · refine List.pairwise_cons.2 ⟨?_, hs⟩
      intro e he
      rcases List.mem_cons.1 he with h | h
      · rw [h]; exact h2
      · exact keyLt_trans h2 (hs'.1 e h)
    · refine List.pairwise_cons.2 ⟨?_, ih hs'.2⟩
      intro e he
      rcases PutState_mem _ _ _ _ he with h | h
      · rw [h]
        rcases keyLt_total h1 with h3 | h3
        · exact h3
        · exact absurd h3 h2
      · exact hs'.1 e h

theorem DelState_sublist (s : WorldState) (key : String) : (DelState s key).Sublist s := by
  induction s with
  | nil => exact List.Sublist.refl _
  | cons hd rest ih =>
    obtain ⟨k, v⟩ := hd
    simp only [DelState]
    split_ifs
    · exact List.sublist_cons_self _ _
    · exact ih.cons₂ _

/-- DelState keeps the keys of the world state in ascending order. -/
theorem DelState_sorted (s : WorldState) (hs : s.Sorted) (key : String) :
    WorldState.Sorted (DelState s key) :=
  List.Pairwise.sublist (DelState_sublist s key) hs

theorem GetState_DelState_other (s : WorldState) (key key2 : String) (h : key2 ≠ key) :
    GetState (DelState s key) key2 = GetState s key2 := by
  induction s with
  | nil => rfl
  | cons hd rest ih =>
    obtain ⟨k, v⟩ := hd
    simp only [DelState]
    split_ifs with h1
    · subst h1
      simp [GetState, h.symm]
    · simp [GetState, ih]

theorem GetState_none_of_lt (s : WorldState) (key : String)
    (h : ∀ e ∈ s, keyLt key e.1 = true) : GetState s key = none := by
  induction s with
  | nil => rfl
  | cons hd rest ih =>
    obtain ⟨k, v⟩ := hd
    have hk : k ≠ key := by
      rintro rfl
      have := h (k, v) (List.mem_cons_self _ _)
      simp [keyLt_irrefl] at this
    simp [GetState, hk, ih fun e he => h e (List.mem_cons_of_mem _ he)]

theorem GetState_DelState_same (s : WorldState) (hs : s.Sorted) (key : String) :
    GetState (DelState s key) key = none := by
  induction s with
  | nil => rfl
  | cons hd rest ih =>
    obtain ⟨k, v⟩ := hd
    have hs' := List.pairwise_cons.1 hs
    simp only [DelState]
    split_ifs with h1
    · subst h1
      exact GetState_none_of_lt rest k hs'.1
    · simp [GetState, h1, ih hs'.2]

/-- Every transaction of the chaincode keeps the keys of the world state in ascending
order. -/
theorem transactions_sorted (s : WorldState) (hs : s.Sorted) :
    (∀ ci policyId cj oj rj, WorldState.Sorted (CreatePolicy ci s policyId cj oj rj).2) ∧
    (∀ username fullName email role organization passwordHash, WorldState.Sorted
      (CreateUser s username fullName email role organization passwordHash).2) ∧
    (∀ ci id title description jurisdiction caseType policyId, WorldState.Sorted
      (CreateCase ci s id title description jurisdiction caseType policyId).2) ∧
    (∀ id, WorldState.Sorted (DeleteCase s id).2) ∧
    (∀ id caseId recordType fileHash offChainUri ownerOrg createdAt policyId description,
      WorldState.Sorted (CreateRecord s id caseId recordType fileHash offChainUri ownerOrg
        createdAt policyId description).2) ∧
    (∀ id metadataJSON, WorldState.Sorted (UpdateRecordMetadata s id metadataJSON).2) := by
  refine ⟨?_, ?_, ?_, ?_, ?_, ?_⟩
  · intro ci policyId cj oj rj
    simp only [CreatePolicy]
    cases GetState s ("policy:" ++ policyId) with
    | some _ => exact hs
    | none =>
      cases UnmarshalStringSlice cj with
      | none => exact hs
      | some _ =>
        cases UnmarshalStringSlice oj with
        | none => exact hs
        | some _ =>
          cases UnmarshalStringSlice rj with
          | none => exact hs
          | some _ => exact PutState_sorted _ hs _ _
  · intro username fullName email role organization passwordHash
    simp only [CreateUser]
    cases GetState s ("user:" ++ username) with
    | some _ => exact hs
    | none => exact PutState_sorted _ hs _ _
  · intro ci id title description jurisdiction caseType policyId
    simp only [CreateCase]
    cases GetState s ("case:" ++ id) with
    | some _ => exact hs
    | none =>
      simp only
      split
      · exact hs
      · exact PutState_sorted _ hs _ _
  · intro id
    simp only [DeleteCase]
    cases GetState s ("case:" ++ id) with
    | none => exact hs
    | some _ => exact DelState_sorted _ hs _
  · intro id caseId recordType fileHash offChainUri ownerOrg createdAt policyId description
    simp only [CreateRecord]
    cases GetState s ("record:" ++ id) with
    | some _ => exact hs
    | none => exact PutState_sorted _ hs _ _
  · intro id metadataJSON
    simp only [UpdateRecordMetadata]
    cases GetState s ("record:" ++ id) with
    | none => exact hs
    | some b =>
      simp only
      cases UnmarshalRecord b with
      | error _ => exact hs
      | ok _ =>
        cases UnmarshalUpdates metadataJSON with
        | none => exact hs
        | some _ => exact PutState_sorted _ hs _ _

/-! ## Lemmas on the exact result of the listings and on the frame of the writes -/

theorem scanLoop_eq_decodeScan {α : Type} (decode : Bytes → Except Error α) (keep : α → Bool)
    (l : List (String × Bytes)) :
    ∀ acc, scanLoop decode keep l acc
      = (decodeScan decode l).map fun xs => acc ++ xs.filter keep := by
  induction l with
  | nil => intro acc; simp [scanLoop, decodeScan, Except.map]
  | cons qr rest ih =>
    intro acc
    simp only [scanLoop, decodeScan]
    cases hd : decode qr.2 with
    | error e => rfl
    | ok x =>
      simp only
      by_cases hk : keep x = true
      · rw [if_pos hk, ih]
        cases decodeScan decode rest with
        | error e => rfl
        | ok xs => simp [Except.map, List.filter_cons, hk]
      · rw [if_neg hk, ih]
        cases decodeScan decode rest with
        | error e => rfl
        | ok xs => simp [Except.map, List.filter_cons, hk]

theorem QueryAllCases_eq (s : WorldState) (org filters role : String) :
    QueryAllCases (caller org) s filters role
      = (decodeScan UnmarshalCase (GetStateByRange s "case:" "case:\uffff")).map
          (List.filter (keepCase s org role)) := by
  simp only [QueryAllCases, caller, QueryAllCases_loop_eq, scanLoop_eq_decodeScan,
    List.nil_append]

theorem QueryRecords_eq (s : WorldState) (org search : String) :
    QueryRecords (caller org) s search
      = (decodeScan UnmarshalRecord (GetStateByRange s "record:" "record:\uffff")).map
          (List.filter (keepRecord s org)) := by
  simp only [QueryRecords, caller, QueryRecords_loop_eq, scanLoop_eq_decodeScan,
    List.nil_append]

theorem QueryRecordsByCase_eq (s : WorldState) (org caseId : String) :
    QueryRecordsByCase (caller org) s caseId
      = (decodeScan UnmarshalRecord (GetStateByRange s "record:" "record:\uffff")).map
          (List.filter (keepRecordOfCase s org caseId)) := by
  simp only [QueryRecordsByCase, caller, QueryRecordsByCase_loop_eq, scanLoop_eq_decodeScan,
    List.nil_append]

theorem keepRecord_iff (s : WorldState) (org : String) (r : Record) :
    keepRecord s org r = true ↔
      r.DocType = "record" ∧ r.PolicyID ≠ "" ∧
        ∃ P, StoredPolicy s r.PolicyID P ∧
          (org ∈ P.AllowedOrgs.elems ∨ "*" ∈ P.AllowedOrgs.elems) := by
  simp only [keepRecord, Bool.and_eq_true, decide_eq_true_eq, Bool.not_eq_true',
    decide_eq_false_iff_not]
  cases hq : QueryPolicy s r.PolicyID with
  | error e =>
    simp only [Bool.false_eq_true, and_false, false_iff]
    rintro ⟨-, -, P, hP, -⟩
    rw [QueryPolicy_of_stored hP] at hq
    cases hq
  | ok P =>
    simp only [orgAllowed_iff]
    constructor
    · rintro ⟨h1, h2, h3⟩
      exact ⟨h1, h2, P, stored_of_QueryPolicy hq, h3⟩
    · rintro ⟨h1, h2, Q, hQ, h3⟩
      have := QueryPolicy_of_stored hQ
      rw [hq] at this
      cases this
      exact ⟨h1, h2, h3⟩

theorem keepCase_iff (s : WorldState) (org role : String) (c : Case) :
    keepCase s org role c = true ↔
      c.DocType = "case" ∧ (c.PolicyID = "" ∨
        ∃ P, StoredPolicy s c.PolicyID P ∧
          (org ∈ P.AllowedOrgs.elems ∨ "*" ∈ P.AllowedOrgs.elems) ∧
          (role ∈ P.AllowedRoles.elems ∨ "*" ∈ P.AllowedRoles.elems)) := by
  simp only [keepCase, Bool.and_eq_true, Bool.or_eq_true, decide_eq_true_eq]
  cases hq : QueryPolicy s c.PolicyID with
  | error e =>
    simp only [Bool.false_eq_true, or_false]
    constructor
    · rintro ⟨h1, h2⟩
      exact ⟨h1, Or.inl h2⟩
    · rintro ⟨h1, h2 | ⟨P, hP, -⟩⟩
      · exact ⟨h1, h2⟩
      · rw [QueryPolicy_of_stored hP] at hq
        cases hq
  | ok P =>
    simp only [Bool.and_eq_true, orgAllowed_iff, roleAllowed_iff]
    constructor
    · rintro ⟨h1, h2 | h2⟩
      · exact ⟨h1, Or.inl h2⟩
      · exact ⟨h1, Or.inr ⟨P, stored_of_QueryPolicy hq, h2⟩⟩
    · rintro ⟨h1, h2 | ⟨Q, hQ, h3⟩⟩
      · exact ⟨h1, Or.inl h2⟩
      · have := QueryPolicy_of_stored hQ
        rw [hq] at this
        cases this
        exact ⟨h1, Or.inr h3⟩

theorem keepRecord_congr (s s2 : WorldState) (org : String)
    (h : ∀ policyId, SameOrgs (QueryPolicy s policyId) (QueryPolicy s2 policyId))
    (r : Record) : keepRecord s2 org r = keepRecord s org r := by
  have := h r.PolicyID
  simp only [keepRecord]
  cases h1 : QueryPolicy s r.PolicyID <;> cases h2 : QueryPolicy s2 r.PolicyID <;>
    simp only [h1, h2, SameOrgs] at this ⊢
  rw [this]

/-- A create operation leaves every key that held a value with that value. -/
theorem GetState_PutState_of_absent (s : WorldState) (k key : String) (value v : Bytes)
    (habsent : GetState s k = none) (hv : GetState s key = some v) :
    GetState (PutState s k value) key = some v := by
  have hne : key ≠ k := by
    rintro rfl
    rw [habsent] at hv
    cases hv
  rw [GetState_PutState_other _ _ _ _ hne, hv]

theorem CreatePolicy_keeps (ci : ClientIdentity) (s : WorldState) (policyId : String)
    (cj oj rj : Bytes) (key : String) (v : Bytes) (hv : GetState s key = some v) :
    GetState (CreatePolicy ci s policyId cj oj rj).2 key = some v := by
  simp only [CreatePolicy]
  cases hg : GetState s ("policy:" ++ policyId) with
  | some _ => exact hv
  | none =>
    cases UnmarshalStringSlice cj with
    | none => exact hv
    | some _ =>
      cases UnmarshalStringSlice oj with
      | none => exact hv
      | some _ =>
        cases UnmarshalStringSlice rj with
        | none => exact hv
        | some _ => exact GetState_PutState_of_absent _ _ _ _ _ hg hv

theorem CreateUser_keeps (s : WorldState)
    (username fullName email role organization passwordHash key : String) (v : Bytes)
    (hv : GetState s key = some v) :
    GetState (CreateUser s username fullName email role organization passwordHash).2 key
      = some v := by
  simp only [CreateUser]
  cases hg : GetState s ("user:" ++ username) with
  | some _ => exact hv
  | none => exact GetState_PutState_of_absent _ _ _ _ _ hg hv

theorem CreateCase_keeps (ci : ClientIdentity) (s : WorldState)
    (id title description jurisdiction caseType policyId key : String) (v : Bytes)
    (hv : GetState s key = some v) :
    GetState (CreateCase ci s id title description jurisdiction caseType policyId).2 key
      = some v := by
  simp only [CreateCase]
  cases hg : GetState s ("case:" ++ id) with
  | some _ => exact hv
  | none =>
    simp only
    split
    · exact hv
    · exact GetState_PutState_of_absent _ _ _ _ _ hg hv

theorem CreateRecord_keeps (s : WorldState)
    (id caseId recordType fileHash offChainUri ownerOrg createdAt policyId description
      key : String) (v : Bytes) (hv : GetState s key = some v) :
    GetState (CreateRecord s id caseId recordType fileHash offChainUri ownerOrg createdAt
      policyId description).2 key = some v := by
  simp only [CreateRecord]
  cases hg : GetState s ("record:" ++ id) with
  | some _ => exact hv
  | none => exact GetState_PutState_of_absent _ _ _ _ _ hg hv

theorem DeleteCase_eq_of_stored (s : WorldState) (id : String) (v : Bytes)
    (hv : GetState s ("case:" ++ id) = some v) :
    DeleteCase s id = (none, DelState s ("case:" ++ id)) := by
  simp [DeleteCase, hv]

theorem DeleteCase_eq_of_absent (s : WorldState) (id : String)
    (hv : GetState s ("case:" ++ id) = none) :
    DeleteCase s id = (some (.caseNotExist id), s) := by
  simp [DeleteCase, hv]

theorem DeleteCase_other (s : WorldState) (id key : String) (hne : key ≠ "case:" ++ id) :
    GetState (DeleteCase s id).2 key = GetState s key := by
  cases hg : GetState s ("case:" ++ id) with
  | none => rw [DeleteCase_eq_of_absent s id hg]
  | some v =>
    rw [DeleteCase_eq_of_stored s id v hg]
    exact GetState_DelState_other _ _ _ hne

theorem UpdateRecordMetadata_other (s : WorldState) (id : String) (metadataJSON : Bytes)
    (key : String) (hne : key ≠ "record:" ++ id) :
    GetState (UpdateRecordMetadata s id metadataJSON).2 key = GetState s key := by
  simp only [UpdateRecordMetadata]
  cases GetState s ("record:" ++ id) with
  | none => rfl
  | some b =>
    simp only
    cases UnmarshalRecord b with
    | error _ => rfl
    | ok _ =>
      cases UnmarshalUpdates metadataJSON with
      | none => rfl
      | some _ => exact GetState_PutState_other _ _ _ _ hne

/-- What UpdateRecordMetadata leaves under the key of the record: the value as it was, or the
record it held with new values in at most policyId, recordType, ownerOrg and description. -/
theorem UpdateRecordMetadata_same (s : WorldState) (id : String) (metadataJSON v : Bytes)
    (hv : GetState s ("record:" ++ id) = some v) :
    GetState (UpdateRecordMetadata s id metadataJSON).2 ("record:" ++ id) = some v ∨
    ∃ r m, UnmarshalRecord v = .ok r ∧
      GetState (UpdateRecordMetadata s id metadataJSON).2 ("record:" ++ id)
        = some (MarshalRecord (mergeMetadata r m)) := by
  cases hr : UnmarshalRecord v with
  | error e =>
    left
    simp [UpdateRecordMetadata, hv, hr]
  | ok r =>
    cases hm : UnmarshalUpdates metadataJSON with
    | none =>
      left
      simp [UpdateRecordMetadata, hv, hr, hm]
    | some m =>
      right
      refine ⟨r, m, rfl, ?_⟩
      have : UpdateRecordMetadata s id metadataJSON
          = (none, PutState s ("record:" ++ id) (MarshalRecord (mergeMetadata r m))) := by
        simp only [UpdateRecordMetadata, hv, hr, hm, mergeMetadata]
        cases m.getString "policyId" <;> cases m.getString "recordType" <;>
          cases m.getString "ownerOrg" <;> cases m.getString "description" <;> rfl
      rw [this]
      exact GetState_PutState_same _ _ _

theorem head_ne_of_first {a b : Char} {as bs : List Char} (h : a ≠ b) (x y : String) :
    (⟨a :: as⟩ : String) ++ x ≠ (⟨b :: bs⟩ : String) ++ y := by
  intro hxy
  have := congrArg String.data hxy
  simp only [String.data_append, List.cons_append, List.cons.injEq] at this
  exact h this.1

/-- An invocation leaves every key that held a value with that value, but for the key of the
case that DeleteCase is called for and the key of the record that UpdateRecordMetadata is
called for. -/
theorem after_keeps (ci : ClientIdentity) (s : WorldState) (op : Invocation) (key : String)
    (v : Bytes) (hv : GetState s key = some v) :
    GetState (op.after ci s) key = some v ∨
    (∃ id, op = .deleteCase id ∧ key = "case:" ++ id) ∨
    (∃ id metadataJSON,
      op = .updateRecordMetadata id metadataJSON ∧ key = "record:" ++ id) := by
  cases op with
  | createPolicy policyId cj oj rj => exact Or.inl (CreatePolicy_keeps _ _ _ _ _ _ _ _ hv)
  | createUser username fullName email role organization passwordHash =>
    exact Or.inl (CreateUser_keeps _ _ _ _ _ _ _ _ _ hv)
  | createCase id title description jurisdiction caseType policyId =>
    exact Or.inl (CreateCase_keeps _ _ _ _ _ _ _ _ _ _ hv)
  | createRecord id caseId recordType fileHash offChainUri ownerOrg createdAt policyId
      description =>
    exact Or.inl (CreateRecord_keeps _ _ _ _ _ _ _ _ _ _ _ _ hv)
  | deleteCase id =>
    by_cases hk : key = "case:" ++ id
    · exact Or.inr (Or.inl ⟨id, rfl, hk⟩)
    · exact Or.inl ((DeleteCase_other s id key hk).trans hv)
  | updateRecordMetadata id metadataJSON =>
    by_cases hk : key = "record:" ++ id
    · exact Or.inr (Or.inr ⟨id, metadataJSON, rfl, hk⟩)
    · exact Or.inl ((UpdateRecordMetadata_other s id metadataJSON key hk).trans hv)
  | _ => exact Or.inl hv

theorem case_key_ne (id x : String) :
    "policy:" ++ x ≠ "case:" ++ id ∧ "org:" ++ x ≠ "case:" ++ id ∧
    "user:" ++ x ≠ "case:" ++ id ∧ "record:" ++ x ≠ "case:" ++ id := by
  refine ⟨?_, ?_, ?_, ?_⟩ <;>
    · intro h
      have := congrArg String.data h
      simp [String.data_append] at this

theorem record_key_ne (id x : String) :
    "policy:" ++ x ≠ "record:" ++ id ∧ "org:" ++ x ≠ "record:" ++ id ∧
    "user:" ++ x ≠ "record:" ++ id ∧ "case:" ++ x ≠ "record:" ++ id := by
  refine ⟨?_, ?_, ?_, ?_⟩ <;>
    · intro h
      have := congrArg String.data h
      simp [String.data_append] at this

theorem demoState_sorted : demoState.Sorted := by
  unfold WorldState.Sorted
  decide

theorem SameOrgs_refl (x : Except Error Policy) : SameOrgs x x := by
  cases x <;> simp [SameOrgs]

theorem append_left_ne {p a b : String} (h : a ≠ b) : p ++ a ≠ p ++ b := by
  intro hab
  apply h
  have := congrArg String.data hab
  simp only [String.data_append, List.append_cancel_left_eq] at this
  exact String.ext this

theorem rolelessState_SameOrgs (policyId : String) :
    SameOrgs (QueryPolicy demoState policyId) (QueryPolicy rolelessState policyId) := by
  by_cases h : policyId = "P1"
  · subst h
    exact (rfl : ["OrgA"] = ["OrgA"])
  · have : QueryPolicy rolelessState policyId = QueryPolicy demoState policyId := by
      have hkey : "policy:" ++ policyId ≠ "policy:P1" := fun hh =>
        append_left_ne h (hh.trans (rfl : "policy:P1" = "policy:" ++ "P1"))
      simp only [QueryPolicy, rolelessState]
      rw [GetState_PutState_other _ _ _ _ hkey]
    rw [this]
    exact SameOrgs_refl _

/-- The operations that check the error of GetMSPID: when the MSP id cannot be read,
QueryAllCases, QueryRecordsByCase and QueryRecords, QueryCase on a stored case with a policy,
QueryRecord on a stored record, and CreateCase with an absent key and the policyId of a stored
policy fail with the error of the identity, and CreateCase writes nothing. -/
theorem identity_error_aborts (s : WorldState) (mspID cause : String) :
    (∀ filters role, QueryAllCases ⟨mspID, some cause⟩ s filters role
      = .error (.clientMSPID cause)) ∧
    (∀ caseId, QueryRecordsByCase ⟨mspID, some cause⟩ s caseId
      = .error (.clientMSPID cause)) ∧
    (∀ search, QueryRecords ⟨mspID, some cause⟩ s search = .error (.clientMSPID cause)) ∧
    (∀ id role c, StoredCase s id c → c.PolicyID ≠ "" →
      QueryCase ⟨mspID, some cause⟩ s id role = .error (.clientMSPID cause)) ∧
    (∀ id role r, StoredRecord s id r →
      QueryRecord ⟨mspID, some cause⟩ s id role = .error (.clientMSPID cause)) ∧
    (∀ id title description jurisdiction caseType policyId P,
      GetState s ("case:" ++ id) = none → policyId ≠ "" → StoredPolicy s policyId P →
      CreateCase ⟨mspID, some cause⟩ s id title description jurisdiction caseType policyId
        = (some (.clientMSPID cause), s)) := by
  refine ⟨?_, ?_, ?_, ?_, ?_, ?_⟩
  · intro filters role
    rfl
  · intro caseId
    rfl
  · intro search
    rfl
  · rintro id role c ⟨b, hb, hc⟩ hp
    simp [QueryCase, hb, hc, hp]
  · rintro id role r ⟨b, hb, hr⟩
    simp [QueryRecord, hb, hr]
  · intro id title description jurisdiction caseType policyId P habsent hp hP
    simp [CreateCase, habsent, hp, QueryPolicy_of_stored hP]

/-! ## Lemmas on single reads against listings, and on the reachable states -/

theorem keepRecordOfCase_eq (s : WorldState) (org caseId : String) (r : Record) :
    keepRecordOfCase s org caseId r = (keepRecord s org r && decide (r.CaseID = caseId)) := by
  simp only [keepRecordOfCase, keepRecord]
  cases decide (r.DocType = "record") <;> cases decide (r.CaseID = caseId) <;> simp

/-- In a world state with keys in ascending order GetState finds every entry. -/
theorem GetState_of_mem (s : WorldState) (hs : s.Sorted) (e : String × Bytes) (he : e ∈ s) :
    GetState s e.1 = some e.2 := by
  induction s with
  | nil => cases he
  | cons hd rest ih =>
    obtain ⟨k, v⟩ := hd
    have hs' := List.pairwise_cons.1 hs
    rcases List.mem_cons.1 he with h | h
    · subst h
      simp [GetState]
    · have hlt := hs'.1 e h
      have hne : k ≠ e.1 := by
        intro hk
        simp only at hlt
        rw [hk, keyLt_irrefl] at hlt
        cases hlt
      simp only [GetState, if_neg hne]
      exact ih hs'.2 h

/-- QueryCase on a stored case with the tag "case" succeeds exactly when the case passes the
test of the loop of QueryAllCases, and then returns the case. -/
theorem QueryCase_of_stored (s : WorldState) (org role id : String) (c : Case)
    (hc : StoredCase s id c) (htag : c.DocType = "case") :
    (keepCase s org role c = true → QueryCase (caller org) s id role = .ok c) ∧
    (keepCase s org role c = false → ∃ err, QueryCase (caller org) s id role = .error err) := by
  obtain ⟨b, hb, hdec⟩ := hc
  simp only [QueryCase, hb, hdec, caller, keepCase, htag, decide_True, Bool.true_and]
  by_cases hp : c.PolicyID = ""
  · simp [hp]
  · cases hq : QueryPolicy s c.PolicyID with
    | error e => simp [hp]
    | ok P =>
      cases hchk : (orgAllowed P.AllowedOrgs.elems org
          && roleAllowed P.AllowedRoles.elems role) <;> simp [hp, hchk]

/-- Where the entries of a scan are in the world state as CreateCase writes them, they decode,
and the cases that pass the test of the loop of QueryAllCases are the cases that QueryCase
returns one by one. -/
theorem decodeScan_written (s : WorldState) (hs : s.Sorted) (org role : String) :
    ∀ l : List (String × Bytes), (∀ e ∈ l, e ∈ s ∧ WrittenByCreateCase e) →
      ∃ cs, decodeScan UnmarshalCase l = .ok cs ∧
        cs.filter (keepCase s org role) = readOneByOne (caller org) s role cs := by
  intro l
  induction l with
  | nil => intro _; exact ⟨[], rfl, rfl⟩
  | cons e rest ih =>
    intro h
    obtain ⟨cs, hcs, hfilter⟩ := ih fun e' he' => h e' (List.mem_cons_of_mem _ he')
    obtain ⟨hmem, org0, id, title, description, jurisdiction, caseType, policyId, he⟩ :=
      h e (List.mem_cons_self _ _)
    have hstored : StoredCase s id
        (createdCase org0 id title description jurisdiction caseType policyId) := by
      have := GetState_of_mem s hs e hmem
      rw [he] at this
      exact ⟨_, this, UnmarshalCase_MarshalCase _⟩
    have hq := QueryCase_of_stored s org role id _ hstored rfl
    refine ⟨createdCase org0 id title description jurisdiction caseType policyId :: cs, ?_, ?_⟩
    · simp only [decodeScan, he, UnmarshalCase_MarshalCase, hcs]
    · cases hk : keepCase s org role
          (createdCase org0 id title description jurisdiction caseType policyId) with
      | true =>
        have h1 := hq.1 hk
        have hid : (createdCase org0 id title description jurisdiction caseType policyId).ID
            = id := rfl
        simp only [List.filter_cons, hk, if_true, readOneByOne, hid, h1, hfilter]
      | false =>
        obtain ⟨err, h1⟩ := hq.2 hk
        have hid : (createdCase org0 id title description jurisdiction caseType policyId).ID
            = id := rfl
        simp only [List.filter_cons, hk, readOneByOne, hid, h1, hfilter]
        simp

theorem CreatePolicy_other (ci : ClientIdentity) (s : WorldState) (policyId : String)
    (cj oj rj : Bytes) (key : String) (hne : key ≠ "policy:" ++ policyId) :
    GetState (CreatePolicy ci s policyId cj oj rj).2 key = GetState s key := by
  simp only [CreatePolicy]
  cases GetState s ("policy:" ++ policyId) with
  | some _ => rfl
  | none =>
    cases UnmarshalStringSlice cj with
    | none => rfl
    | some _ =>
      cases UnmarshalStringSlice oj with
      | none => rfl
      | some _ =>
        cases UnmarshalStringSlice rj with
        | none => rfl
        | some _ => exact GetState_PutState_other _ _ _ _ hne

theorem CreateUser_other (s : WorldState)
    (username fullName email role organization passwordHash key : String)
    (hne : key ≠ "user:" ++ username) :
    GetState (CreateUser s username fullName email role organization passwordHash).2 key
      = GetState s key := by
  simp only [CreateUser]
  cases GetState s ("user:" ++ username) with
  | some _ => rfl
  | none => exact GetState_PutState_other _ _ _ _ hne

theorem CreateRecord_other (s : WorldState)
    (id caseId recordType fileHash offChainUri ownerOrg createdAt policyId description
      key : String) (hne : key ≠ "record:" ++ id) :
    GetState (CreateRecord s id caseId recordType fileHash offChainUri ownerOrg createdAt
      policyId description).2 key = GetState s key := by
  simp only [CreateRecord]
  cases GetState s ("record:" ++ id) with
  | some _ => rfl
  | none => exact GetState_PutState_other _ _ _ _ hne

/-- What CreateCase leaves: the state it was given, or that state with the created case put
under the case key, and then a non-empty policyId names a stored policy that has the MSP id of
the client or the wildcard in allowedOrgs. -/
theorem CreateCase_result (ci : ClientIdentity) (s : WorldState)
    (id title description jurisdiction caseType policyId : String) :
    (CreateCase ci s id title description jurisdiction caseType policyId).2 = s ∨
    ((CreateCase ci s id title description jurisdiction caseType policyId).2
        = PutState s ("case:" ++ id)
          (MarshalCase (createdCase ci.mspID id title description jurisdiction caseType
            policyId)) ∧
      (policyId ≠ "" → ∃ P, StoredPolicy s policyId P ∧
        (ci.mspID ∈ P.AllowedOrgs.elems ∨ "*" ∈ P.AllowedOrgs.elems))) := by
  simp only [CreateCase]
  cases GetState s ("case:" ++ id) with
  | some _ => exact Or.inl rfl
  | none =>
    simp only
    by_cases hp : policyId = ""
    · right
      simp [hp, createdCase]
    · cases hq : QueryPolicy s policyId with
      | error e =>
        left
        simp [hp]
      | ok P =>
        cases hci : ci.err with
        | some e =>
          left
          simp [hp, hci]
        | none =>
          cases ha : orgAllowed P.AllowedOrgs.elems ci.mspID with
          | false =>
            left
            simp [hp, hci, ha]
          | true =>
            right
            refine ⟨by simp [hp, hci, ha, createdCase], fun _ =>
              ⟨P, stored_of_QueryPolicy hq, (orgAllowed_iff _ _).1 ha⟩⟩

/-- An invocation leaves every stored policy stored. -/
theorem StoredPolicy_after (ci : ClientIdentity) (s : WorldState) (op : Invocation)
    (policyId : String) (P : Policy) (h : StoredPolicy s policyId P) :
    StoredPolicy (op.after ci s) policyId P := by
  obtain ⟨b, hb, hP⟩ := h
  rcases after_keeps ci s op _ b hb with h1 | ⟨id, -, hk⟩ | ⟨id, m, -, hk⟩
  · exact ⟨b, h1, hP⟩
  · exact absurd hk (case_key_ne id policyId).1
  · exact absurd hk (record_key_ne id policyId).1

/-- What a case key holds after an invocation it held before, or it is the case a successful
CreateCase of this invocation put there. -/
theorem case_key_after (ci : ClientIdentity) (s : WorldState) (hs : s.Sorted)
    (op : Invocation) (id : String) (v : Bytes)
    (hv : GetState (op.after ci s) ("case:" ++ id) = some v) :
    GetState s ("case:" ++ id) = some v ∨
    ∃ title description jurisdiction caseType policyId,
      v = MarshalCase (createdCase ci.mspID id title description jurisdiction caseType
        policyId) ∧
      (policyId ≠ "" → ∃ P, StoredPolicy s policyId P ∧
        (ci.mspID ∈ P.AllowedOrgs.elems ∨ "*" ∈ P.AllowedOrgs.elems)) := by
  cases op with
  | createPolicy policyId cj oj rj =>
    left
    rw [← CreatePolicy_other ci s policyId cj oj rj _ (Ne.symm (case_key_ne id policyId).1)]
    exact hv
  | createUser username fullName email role organization passwordHash =>
    left
    rw [← CreateUser_other s username fullName email role organization passwordHash _
      (Ne.symm (case_key_ne id username).2.2.1)]
    exact hv
  | createRecord rid caseId recordType fileHash offChainUri ownerOrg createdAt policyId
      description =>
    left
    rw [← CreateRecord_other s rid caseId recordType fileHash offChainUri ownerOrg createdAt
      policyId description _ (Ne.symm (case_key_ne id rid).2.2.2)]
    exact hv
  | updateRecordMetadata rid metadataJSON =>
    left
    rw [← UpdateRecordMetadata_other s rid metadataJSON _
      (Ne.symm (case_key_ne id rid).2.2.2)]
    exact hv
  | deleteCase id2 =>
    left
    by_cases hid : id = id2
    · subst hid
      cases hg : GetState s ("case:" ++ id) with
      | none =>
        simp only [Invocation.after, DeleteCase_eq_of_absent s id hg] at hv
        rw [hg] at hv
        cases hv
      | some w =>
        simp only [Invocation.after, DeleteCase_eq_of_stored s id w hg] at hv
        rw [GetState_DelState_same s hs] at hv
        cases hv
    · rw [← DeleteCase_other s id2 _ (append_left_ne hid)]
      exact hv
  | createCase id2 title description jurisdiction caseType policyId =>
    simp only [Invocation.after] at hv
    rcases CreateCase_result ci s id2 title description jurisdiction caseType policyId with
      h | ⟨h, hadm⟩
    · left
      rw [h] at hv
      exact hv
    · rw [h] at hv
      by_cases hid : id = id2
      · subst hid
        right
        rw [GetState_PutState_same] at hv
        exact ⟨title, description, jurisdiction, caseType, policyId,
          (Option.some.inj hv).symm, hadm⟩
      · left
        rw [GetState_PutState_other _ _ _ _ (append_left_ne hid)] at hv
        exact hv
  | queryPolicy _ => exact Or.inl hv
  | queryAllPolicies => exact Or.inl hv
  | queryAllOrganizations => exact Or.inl hv
  | queryOrganization _ => exact Or.inl hv
  | queryOrganizationMembers _ => exact Or.inl hv
  | queryUser _ => exact Or.inl hv
  | queryCase _ _ => exact Or.inl hv
  | queryAllCases _ _ => exact Or.inl hv
  | queryRecord _ _ => exact Or.inl hv
  | queryRecordsByCase _ => exact Or.inl hv
  | queryRecords _ => exact Or.inl hv

theorem after_sorted (ci : ClientIdentity) (s : WorldState) (hs : s.Sorted)
    (op : Invocation) : WorldState.Sorted (op.after ci s) := by
  have h := transactions_sorted s hs
  cases op with
  | createPolicy policyId cj oj rj => exact h.1 ci policyId cj oj rj
  | createUser username fullName email role organization passwordHash =>
    exact h.2.1 username fullName email role organization passwordHash
  | createCase id title description jurisdiction caseType policyId =>
    exact h.2.2.1 ci id title description jurisdiction caseType policyId
  | deleteCase id => exact h.2.2.2.1 id
  | createRecord id caseId recordType fileHash offChainUri ownerOrg createdAt policyId
      description =>
    exact h.2.2.2.2.1 id caseId recordType fileHash offChainUri ownerOrg createdAt policyId
      description
  | updateRecordMetadata id metadataJSON => exact h.2.2.2.2.2 id metadataJSON
  | _ => exact hs

/-- An invocation keeps the referential integrity of cases. -/
theorem CasesBound_after (ci : ClientIdentity) (s : WorldState) (hs : s.Sorted)
    (hb : CasesBound s) (op : Invocation) : CasesBound (op.after ci s) := by
  intro id v hv
  rcases case_key_after ci s hs op id v hv with h | ⟨t, d, j, ct, pid, hval, hadm⟩
  · obtain ⟨c, hc, hpol⟩ := hb id v h
    refine ⟨c, hc, fun hp => ?_⟩
    obtain ⟨P, hP, hin⟩ := hpol hp
    exact ⟨P, StoredPolicy_after ci s op _ P hP, hin⟩
  · refine ⟨_, hval, fun hp => ?_⟩
    obtain ⟨P, hP, hin⟩ := hadm hp
    exact ⟨P, StoredPolicy_after ci s op _ P hP, hin⟩

/-- Every sequence of invocations keeps the order of the keys and the referential integrity
of cases. -/
theorem runAll_invariant (invocations : List (ClientIdentity × Invocation)) :
    ∀ s : WorldState, s.Sorted → CasesBound s →
      WorldState.Sorted (runAll s invocations) ∧ CasesBound (runAll s invocations) := by
  induction invocations with
  | nil => intro s hs hb; exact ⟨hs, hb⟩
  | cons x rest ih =>
    intro s hs hb
    obtain ⟨ci, op⟩ := x
    exact ih _ (after_sorted ci s hs op) (CasesBound_after ci s hs hb op)

theorem CasesBound_empty : CasesBound [] := by
  intro id v hv
  cases hv

/-- In a state with referential integrity a stored case with a policyId has its policy, and
QueryCase does not fail with the error of the policy lookup. -/
theorem CasesBound_spec (s : WorldState) (hb : CasesBound s) :
    (∀ id c, StoredCase s id c → c.PolicyID ≠ "" →
      ∃ P, StoredPolicy s c.PolicyID P ∧
        (c.CreatedBy ∈ P.AllowedOrgs.elems ∨ "*" ∈ P.AllowedOrgs.elems)) ∧
    (∀ ci id role policyId err,
      QueryCase ci s id role ≠ .error (.getPolicy policyId err)) := by
  constructor
  · rintro id c ⟨b, hg, hdec⟩ hp
    obtain ⟨c0, hc0, hpol⟩ := hb id b hg
    rw [hc0, UnmarshalCase_MarshalCase] at hdec
    cases hdec
    exact hpol hp
  · intro ci id role policyId err
    simp only [QueryCase]
    cases hg : GetState s ("case:" ++ id) with
    | none => simp
    | some b =>
      obtain ⟨c, hc, hpol⟩ := hb id b hg
      subst hc
      simp only [UnmarshalCase_MarshalCase]
      by_cases hp : c.PolicyID = ""
      · simp [hp]
      · obtain ⟨P, hP, -⟩ := hpol hp
        cases ci.err with
        | some e => simp [hp]
        | none =>
          simp only [QueryPolicy_of_stored hP, hp]
          split_ifs <;> simp

/-! ## The claims -/

/-- C1: for a stored policy P under a non-empty policy id and a caller whose organization is
resolved to org, QueryCase on a stored case bound to P, and QueryRecord on a stored record
bound to P, return the stored document if (org or the wildcard is in P.allowedOrgs) and (role
or the wildcard is in P.allowedRoles), and otherwise fail with the access-denied error for org
and role. -/
theorem C1_query_iff_authorized (s : WorldState) (org role policyId : String) (P : Policy)
    (hbound : policyId ≠ "") (hP : StoredPolicy s policyId P) :
    (∀ id c, StoredCase s id c → c.PolicyID = policyId →
      QueryCase (caller org) s id role =
        if (org ∈ P.AllowedOrgs.elems ∨ "*" ∈ P.AllowedOrgs.elems)
            ∧ (role ∈ P.AllowedRoles.elems ∨ "*" ∈ P.AllowedRoles.elems)
        then .ok c else .error (.accessDenied org role)) ∧
    (∀ id r, StoredRecord s id r → r.PolicyID = policyId →
      QueryRecord (caller org) s id role =
        if (org ∈ P.AllowedOrgs.elems ∨ "*" ∈ P.AllowedOrgs.elems)
            ∧ (role ∈ P.AllowedRoles.elems ∨ "*" ∈ P.AllowedRoles.elems)
        then .ok r else .error (.accessDenied org role)) := by
  have hq := QueryPolicy_of_stored hP
  have ho := orgAllowed_iff P.AllowedOrgs.elems org
  have hr := roleAllowed_iff P.AllowedRoles.elems role
  constructor
  · rintro id c ⟨b, hb, hc⟩ hpid
    subst hpid
    simp only [QueryCase, hb, hc, caller, hq, ← ho, ← hr]
    cases orgAllowed P.AllowedOrgs.elems org <;>
      cases roleAllowed P.AllowedRoles.elems role <;> simp [hbound]
  · rintro id r ⟨b, hb, hrec⟩ hpid
    subst hpid
    simp only [QueryRecord, hb, hrec, caller, hq, ← ho, ← hr]
    cases orgAllowed P.AllowedOrgs.elems org <;>
      cases roleAllowed P.AllowedRoles.elems role <;> simp [hbound]

/-- The scenario of C1: policy P1 allows OrgA and Investigator; OrgA as Investigator reads case
C1 and record R1, OrgA as Clerk and OrgB as Investigator are denied. -/
theorem C1_query_iff_authorized_witness :
    QueryCase (caller "OrgA") demoState "C1" "Investigator" = .ok demoCase ∧
    QueryCase (caller "OrgA") demoState "C1" "Clerk"
      = .error (.accessDenied "OrgA" "Clerk") ∧
    QueryCase (caller "OrgB") demoState "C1" "Investigator"
      = .error (.accessDenied "OrgB" "Investigator") ∧
    QueryRecord (caller "OrgA") demoState "R1" "Investigator" = .ok demoRecord ∧
    QueryRecord (caller "OrgB") demoState "R1" "Investigator"
      = .error (.accessDenied "OrgB" "Investigator") :=
  ⟨((C1_query_iff_authorized demoState "OrgA" "Investigator" "P1" demoPolicy (by decide)
      ⟨_, rfl, rfl⟩).1 "C1" demoCase ⟨_, rfl, rfl⟩ rfl).trans rfl,
   ((C1_query_iff_authorized demoState "OrgA" "Clerk" "P1" demoPolicy (by decide)
      ⟨_, rfl, rfl⟩).1 "C1" demoCase ⟨_, rfl, rfl⟩ rfl).trans rfl,
   ((C1_query_iff_authorized demoState "OrgB" "Investigator" "P1" demoPolicy (by decide)
      ⟨_, rfl, rfl⟩).1 "C1" demoCase ⟨_, rfl, rfl⟩ rfl).trans rfl,
   ((C1_query_iff_authorized demoState "OrgA" "Investigator" "P1" demoPolicy (by decide)
      ⟨_, rfl, rfl⟩).2 "R1" demoRecord ⟨_, rfl, rfl⟩ rfl).trans rfl,
   ((C1_query_iff_authorized demoState "OrgB" "Investigator" "P1" demoPolicy (by decide)
      ⟨_, rfl, rfl⟩).2 "R1" demoRecord ⟨_, rfl, rfl⟩ rfl).trans rfl⟩

/-- C2: QueryCase on a stored case whose policyId is empty returns the case for every client
identity (resolved or not) and every role, without any access check; QueryRecord on a stored
record whose policyId is empty fails, for every caller organization and role, with the error
"record <id> has no associated policy". -/
theorem C2_empty_policy_reference (s : WorldState) (id role : String) :
    (∀ ci c, StoredCase s id c → c.PolicyID = "" → QueryCase ci s id role = .ok c) ∧
    (∀ org r, StoredRecord s id r → r.PolicyID = "" →
      QueryRecord (caller org) s id role = .error (.recordNoPolicy id)) := by
  constructor
  · rintro ci c ⟨b, hb, hc⟩ hp
    simp [QueryCase, hb, hc, hp]
  · rintro org r ⟨b, hb, hr⟩ hp
    simp [QueryRecord, hb, hr, hp, caller]

/-- The scenario of C2: case C0 and record R0 were created with an empty policyId. -/
theorem C2_empty_policy_reference_witness :
    QueryCase ⟨"", some "no identity"⟩ demoState "C0" "Clerk" = .ok openCase ∧
    QueryRecord (caller "OrgA") demoState "R0" "Clerk" = .error (.recordNoPolicy "R0") :=
  ⟨(C2_empty_policy_reference demoState "C0" "Clerk").1 ⟨"", some "no identity"⟩ openCase
      ⟨_, rfl, rfl⟩ rfl,
   (C2_empty_policy_reference demoState "R0" "Clerk").2 "OrgA" openRecord ⟨_, rfl, rfl⟩ rfl⟩

/-- C3: when the key of the document to create already holds a value, CreatePolicy, CreateUser,
CreateCase and CreateRecord fail with their already-exists error and return the world state
they were given, for every client identity and every choice of the other arguments (lists that
are not JSON and any policy reference included). -/
theorem C3_create_existing_key_fails (s : WorldState) (v : Bytes) :
    (∀ ci policyId categoriesJSON allowedOrgsJSON allowedRolesJSON,
      GetState s ("policy:" ++ policyId) = some v →
      CreatePolicy ci s policyId categoriesJSON allowedOrgsJSON allowedRolesJSON
        = (some (.policyExists policyId), s)) ∧
    (∀ username fullName email role organization passwordHash,
      GetState s ("user:" ++ username) = some v →
      CreateUser s username fullName email role organization passwordHash
        = (some (.userExists username), s)) ∧
    (∀ ci id title description jurisdiction caseType policyId,
      GetState s ("case:" ++ id) = some v →
      CreateCase ci s id title description jurisdiction caseType policyId
        = (some (.caseExists id), s)) ∧
    (∀ id caseId recordType fileHash offChainUri ownerOrg createdAt policyId description,
      GetState s ("record:" ++ id) = some v →
      CreateRecord s id caseId recordType fileHash offChainUri ownerOrg createdAt policyId
        description = (some (.recordExists id), s)) := by
  refine ⟨?_, ?_, ?_, ?_⟩
  · intro ci policyId cj oj rj h
    simp [CreatePolicy, h]
  · intro username fullName email role organization passwordHash h
    simp [CreateUser, h]
  · intro ci id title description jurisdiction caseType policyId h
    simp [CreateCase, h]
  · intro id caseId recordType fileHash offChainUri ownerOrg createdAt policyId description h
    simp [CreateRecord, h]

/-- The scenario of C3: a second CreateCase for C1 fails and leaves the state, in which the
first case is still read; the same for a second policy P1, user alice and record R1. -/
theorem C3_create_existing_key_fails_witness :
    CreateCase (caller "OrgB") demoState "C1" "Other" "other" "Goa" "civil" ""
      = (some (.caseExists "C1"), demoState) ∧
    QueryCase (caller "OrgA") demoState "C1" "Investigator" = .ok demoCase ∧
    CreatePolicy (caller "OrgB") demoState "P1" none none none
      = (some (.policyExists "P1"), demoState) ∧
    CreateUser demoState "alice" "Mallory" "m@example.org" "Clerk" "OrgB" "hash"
      = (some (.userExists "alice"), demoState) ∧
    CreateRecord demoState "R1" "C9" "x" "x" "x" "OrgB" "x" "P9" "x"
      = (some (.recordExists "R1"), demoState) :=
  ⟨(C3_create_existing_key_fails demoState (MarshalCase demoCase)).2.2.1 (caller "OrgB")
      "C1" "Other" "other" "Goa" "civil" "" rfl,
   rfl,
   (C3_create_existing_key_fails demoState (MarshalPolicy demoPolicy)).1 (caller "OrgB")
      "P1" none none none rfl,
   (C3_create_existing_key_fails demoState _).2.1
      "alice" "Mallory" "m@example.org" "Clerk" "OrgB" "hash" rfl,
   (C3_create_existing_key_fails demoState (MarshalRecord demoRecord)).2.2.2
      "R1" "C9" "x" "x" "x" "OrgB" "x" "P9" "x" rfl⟩

/-- C4: when the key of the identifier is absent from the world state, QueryPolicy,
QueryOrganization, QueryOrganizationMembers, QueryUser, QueryCase and QueryRecord return no
document and fail with the not-found error of their type, for every client identity and
role. -/
theorem C4_absent_key_not_found (s : WorldState) (id : String) :
    (GetState s ("policy:" ++ id) = none → QueryPolicy s id = .error (.policyNotExist id)) ∧
    (GetState s ("org:" ++ id) = none →
      QueryOrganization s id = .error (.organizationNotFound id) ∧
      QueryOrganizationMembers s id = .error (.organizationNotFound id)) ∧
    (GetState s ("user:" ++ id) = none → QueryUser s id = .error (.userNotFound id)) ∧
    (GetState s ("case:" ++ id) = none →
      ∀ ci role, QueryCase ci s id role = .error (.caseNotFound id)) ∧
    (GetState s ("record:" ++ id) = none →
      ∀ ci role, QueryRecord ci s id role = .error (.recordNotFound id)) := by
  refine ⟨?_, ?_, ?_, ?_, ?_⟩
  · intro h
    simp [QueryPolicy, h]
  · intro h
    simp [QueryOrganizationMembers, QueryOrganization, h]
  · intro h
    simp [QueryUser, h]
  · intro h ci role
    simp [QueryCase, h]
  · intro h ci role
    simp [QueryRecord, h]

/-- The scenario of C4: nothing is stored under the identifier X9. -/
theorem C4_absent_key_not_found_witness :
    QueryPolicy demoState "X9" = .error (.policyNotExist "X9") ∧
    QueryOrganizationMembers demoState "X9" = .error (.organizationNotFound "X9") ∧
    QueryUser demoState "X9" = .error (.userNotFound "X9") ∧
    QueryCase (caller "OrgA") demoState "X9" "Investigator" = .error (.caseNotFound "X9") ∧
    QueryRecord (caller "OrgA") demoState "X9" "Investigator"
      = .error (.recordNotFound "X9") :=
  ⟨(C4_absent_key_not_found demoState "X9").1 rfl,
   ((C4_absent_key_not_found demoState "X9").2.1 rfl).2,
   (C4_absent_key_not_found demoState "X9").2.2.1 rfl,
   (C4_absent_key_not_found demoState "X9").2.2.2.1 rfl (caller "OrgA") "Investigator",
   (C4_absent_key_not_found demoState "X9").2.2.2.2 rfl (caller "OrgA") "Investigator"⟩

/-- C5, against the claim as stated: the metadata object with the description x and the colour
1e400, a number outside the range of float64, is not decoded: the update of the stored record
R1 fails with the error of invalid metadata and the world state stays as it is, so the
description is not replaced. -/
theorem C5_number_out_of_range_rejected :
    StoredRecord demoState "R1" demoRecord ∧
    UpdateRecordMetadata demoState "R1"
      (some (.obj [("description", .str "x"), ("colour", .num "1e400")]))
      = (some .metadataJSON, demoState) ∧
    QueryRecord (caller "OrgA") demoState "R1" "Investigator" = .ok demoRecord ∧
    demoRecord.Description ≠ "x" :=
  ⟨⟨_, rfl, rfl⟩,
   UpdateRecordMetadata_rejected demoState "R1" demoRecord _ _ rfl rfl
    (by simp [objectInterface, valueInterface, convertNumber_out_of_range]),
   rfl, by decide⟩

/-- C5, amended: for a stored record r under the id and a metadata object m whose numbers, at
any depth, all convert to float64, UpdateRecordMetadata succeeds; the record stored under the
id afterwards is r with each of policyId, recordType, ownerOrg and description replaced by the
value of m exactly when m has that key with a string value, and every other field as in r; no
other key of the world state changes its value; an m without the four names leaves the record
as it is, and an m that only has description changes only that field. For an m with a number
that does not convert, the update fails with the error of invalid metadata and the world state
stays as it is. -/
theorem C5_update_record_metadata (s : WorldState) (id : String) (r : Record)
    (m : List (String × JSON)) (hr : StoredRecord s id r) :
    (objectInterface m = true →
      (UpdateRecordMetadata s id (some (.obj m))).1 = none ∧
      StoredRecord (UpdateRecordMetadata s id (some (.obj m))).2 id (mergeMetadata r m) ∧
      MergedRecord r m (mergeMetadata r m) ∧
      (∀ key, key ≠ "record:" ++ id →
        GetState (UpdateRecordMetadata s id (some (.obj m))).2 key = GetState s key) ∧
      ((∀ k ∈ ["policyId", "recordType", "ownerOrg", "description"], ∀ v, (k, v) ∉ m) →
        mergeMetadata r m = r) ∧
      (∀ x, m = [("description", .str x)] →
        mergeMetadata r m = { r with Description := x })) ∧
    (objectInterface m = false →
      UpdateRecordMetadata s id (some (.obj m)) = (some .metadataJSON, s)) := by
  obtain ⟨b, hb, hdec⟩ := hr
  constructor
  · intro hm
    rw [UpdateRecordMetadata_eq s id r m b hb hdec hm]
    refine ⟨rfl, ⟨_, GetState_PutState_same _ _ _, UnmarshalRecord_MarshalRecord _⟩,
      mergeMetadata_merged r m, ?_, ?_, ?_⟩
    · intro key hkey
      exact GetState_PutState_other _ _ _ _ hkey
    · intro h
      simp [mergeMetadata, Updates_getString_none m _ (h _ _)]
    · rintro x rfl
      rfl
  · intro hm
    exact UpdateRecordMetadata_rejected s id r m b hb hdec hm

/-- The scenario of C5: record R1 is updated with a description and a name that is not
recognized, whose value is a number that converts; afterwards R1 is read with the new
description and nothing else changed. -/
theorem C5_update_record_metadata_witness :
    StoredRecord demoState "R1" demoRecord ∧
    objectInterface [("description", .str "x"), ("colour", .num "7")] = true ∧
    (UpdateRecordMetadata demoState "R1"
      (some (.obj [("description", .str "x"), ("colour", .num "7")]))).1 = none ∧
    HasString [("description", .str "x"), ("colour", .num "7")] "description" "x" ∧
    mergeMetadata demoRecord [("description", .str "x"), ("colour", .num "7")]
      = { demoRecord with Description := "x" } ∧
    QueryRecord (caller "OrgA") (UpdateRecordMetadata demoState "R1"
      (some (.obj [("description", .str "x"), ("colour", .num "7")]))).2 "R1" "Investigator"
      = .ok { demoRecord with Description := "x" } :=
  ⟨⟨_, rfl, rfl⟩, objectInterface_in_range,
   ((C5_update_record_metadata demoState "R1" demoRecord
      [("description", .str "x"), ("colour", .num "7")] ⟨_, rfl, rfl⟩).1
        objectInterface_in_range).1,
   ⟨[], [("colour", .num "7")], rfl, by simp⟩,
   rfl, by
    have h := UpdateRecordMetadata_eq demoState "R1" demoRecord
      [("description", .str "x"), ("colour", .num "7")] _ rfl rfl objectInterface_in_range
    rw [h]
    rfl⟩

/-- C6: when the check of QueryCase, QueryRecord and QueryAllCases (orgAllowed and roleAllowed)
grants org and role access under P, it also grants them access under every policy that has the
wildcard put into the allowedOrgs of P at any position and the allowedRoles of P, and under
every policy that has the wildcard put into the allowedRoles of P at any position and the
allowedOrgs of P. -/
theorem C6_wildcard_monotone (P : Policy) (org role : String) (pre post : List String)
    (hgrant : (orgAllowed P.AllowedOrgs.elems org
      && roleAllowed P.AllowedRoles.elems role) = true) :
    (∀ Q : Policy, P.AllowedOrgs.elems = pre ++ post →
      Q.AllowedOrgs.elems = pre ++ "*" :: post → Q.AllowedRoles.elems = P.AllowedRoles.elems →
      (orgAllowed Q.AllowedOrgs.elems org && roleAllowed Q.AllowedRoles.elems role) = true) ∧
    (∀ Q : Policy, P.AllowedRoles.elems = pre ++ post →
      Q.AllowedRoles.elems = pre ++ "*" :: post → Q.AllowedOrgs.elems = P.AllowedOrgs.elems →
      (orgAllowed Q.AllowedOrgs.elems org && roleAllowed Q.AllowedRoles.elems role) = true) := by
  rw [Bool.and_eq_true] at hgrant
  constructor
  · intro Q _ ho hr
    rw [Bool.and_eq_true, ho, hr]
    exact ⟨(orgAllowed_iff _ _).2 (Or.inr (by simp)), hgrant.2⟩
  · intro Q _ hr ho
    rw [Bool.and_eq_true, ho, hr]
    exact ⟨hgrant.1, (roleAllowed_iff _ _).2 (Or.inr (by simp))⟩

/-- The scenario of C6: OrgA as Investigator is granted access under P1 and stays granted when
the wildcard is appended to the organizations or put in front of the roles. -/
theorem C6_wildcard_monotone_witness :
    (orgAllowed demoPolicy.AllowedOrgs.elems "OrgA"
      && roleAllowed demoPolicy.AllowedRoles.elems "Investigator") = true ∧
    (orgAllowed ["OrgA", "*"] "OrgA" && roleAllowed ["Investigator"] "Investigator") = true ∧
    (orgAllowed ["OrgA"] "OrgA" && roleAllowed ["*", "Investigator"] "Investigator") = true :=
  ⟨rfl,
   (C6_wildcard_monotone demoPolicy "OrgA" "Investigator" ["OrgA"] [] rfl).1
      { demoPolicy with AllowedOrgs := some ["OrgA", "*"] } rfl rfl rfl,
   (C6_wildcard_monotone demoPolicy "OrgA" "Investigator" [] ["Investigator"] rfl).2
      { demoPolicy with AllowedRoles := some ["*", "Investigator"] } rfl rfl rfl⟩

/-- C7: for a stored policy P under a non-empty policy id whose allowedOrgs or allowedRoles has
no element, and every caller organization and role, QueryCase and QueryRecord on a stored
document bound to P fail with the access-denied error, and no case that QueryAllCases returns
is bound to P. -/
theorem C7_empty_list_denies (s : WorldState) (policyId : String) (P : Policy)
    (org role : String) (hbound : policyId ≠ "") (hP : StoredPolicy s policyId P)
    (hempty : P.AllowedOrgs.elems = [] ∨ P.AllowedRoles.elems = []) :
    (∀ id c, StoredCase s id c → c.PolicyID = policyId →
      QueryCase (caller org) s id role = .error (.accessDenied org role)) ∧
    (∀ id r, StoredRecord s id r → r.PolicyID = policyId →
      QueryRecord (caller org) s id role = .error (.accessDenied org role)) ∧
    (∀ filters cases, QueryAllCases (caller org) s filters role = .ok cases →
      ∀ c ∈ cases, c.PolicyID ≠ policyId) := by
  have hq := QueryPolicy_of_stored hP
  have hdeny : (orgAllowed P.AllowedOrgs.elems org
      && roleAllowed P.AllowedRoles.elems role) = false := by
    rcases hempty with h | h
    · simp [h, orgAllowed]
    · simp [h, roleAllowed]
  refine ⟨?_, ?_, ?_⟩
  · rintro id c ⟨b, hb, hc⟩ hpid
    subst hpid
    simp [QueryCase, hb, hc, caller, hq, hdeny, hbound]
  · rintro id r ⟨b, hb, hr⟩ hpid
    subst hpid
    simp [QueryRecord, hb, hr, caller, hq, hdeny, hbound]
  · intro filters cases h c hc hpid
    simp only [QueryAllCases, caller, QueryAllCases_loop_eq] at h
    obtain ⟨es, xs, -, hout, hall⟩ := scanLoop_ok _ _ _ _ _ h
    simp only [List.nil_append] at hout
    subst hout
    obtain ⟨e, -, -, hkeep⟩ := forall₂_exists_left hall c hc
    simp [keepCase, hpid, hbound, hq, hdeny] at hkeep

/-- The scenario of C7: policy P0 allows no role; case C2 and record R2 are bound to it, are
denied to every role, the wildcard role included, and C2 is not in the listing of cases. -/
theorem C7_empty_list_denies_witness :
    StoredPolicy demoState "P0" closedPolicy ∧ closedPolicy.AllowedRoles.elems = [] ∧
    QueryCase (caller "OrgA") demoState "C2" "*" = .error (.accessDenied "OrgA" "*") ∧
    QueryRecord (caller "OrgA") demoState "R2" "*" = .error (.accessDenied "OrgA" "*") ∧
    QueryAllCases (caller "OrgA") demoState "" "*" = .ok [openCase] ∧
    openCase.PolicyID ≠ "P0" :=
  ⟨⟨_, rfl, rfl⟩, rfl,
   (C7_empty_list_denies demoState "P0" closedPolicy "OrgA" "*" (by decide) ⟨_, rfl, rfl⟩
      (Or.inr rfl)).1 "C2" _ ⟨_, rfl, rfl⟩ rfl,
   (C7_empty_list_denies demoState "P0" closedPolicy "OrgA" "*" (by decide) ⟨_, rfl, rfl⟩
      (Or.inr rfl)).2.1 "R2" _ ⟨_, rfl, rfl⟩ rfl,
   rfl,
   (C7_empty_list_denies demoState "P0" closedPolicy "OrgA" "*" (by decide) ⟨_, rfl, rfl⟩
      (Or.inr rfl)).2.2 "" [openCase] rfl openCase (List.mem_singleton.2 rfl)⟩

/-- C8, against the claim as stated: in a world state with keys in ascending order, where two
cases sit under the key of the other's identifier, QueryAllCases returns them in key order,
and their identifiers are not ascending. -/
theorem C8_identifiers_not_ascending :
    swappedState.Sorted ∧
    QueryAllCases (caller "OrgA") swappedState "" "Investigator"
      = .ok [{ openCase with ID := "b" }, { openCase with ID := "a" }] ∧
    ¬ List.Pairwise (fun a b : Case => keyLt a.ID b.ID = true)
      [{ openCase with ID := "b" }, { openCase with ID := "a" }] := by
  refine ⟨by unfold WorldState.Sorted; decide, rfl, by decide⟩

/-- C8, amended: in a world state with keys in ascending order, what QueryAllPolicies,
QueryAllOrganizations, QueryAllCases, QueryRecordsByCase and QueryRecords return is the decoded
values of a subsequence of the range scan of their type, in the order of the scan, with keys
strictly ascending; every returned document has the tag of the type (policy, org, case,
record); and the identifiers of the returned documents are strictly ascending when each of
them is stored under the key of its own identifier. -/
theorem C8_listings_ordered_and_typed (s : WorldState) (hs : s.Sorted) :
    (∀ out, QueryAllPolicies s = .ok out →
      OrderedListing (GetStateByRange s "policy:" "policy:\uffff") UnmarshalPolicy
        Policy.DocType Policy.PolicyID "policy:" "policy" out) ∧
    (∀ out, QueryAllOrganizations s = .ok out →
      OrderedListing (GetStateByRange s "org:" "org:\uffff") UnmarshalOrganization
        Organization.DocType Organization.OrgID "org:" "org" out) ∧
    (∀ ci filters role out, QueryAllCases ci s filters role = .ok out →
      OrderedListing (GetStateByRange s "case:" "case:\uffff") UnmarshalCase
        Case.DocType Case.ID "case:" "case" out) ∧
    (∀ ci caseId out, QueryRecordsByCase ci s caseId = .ok out →
      OrderedListing (GetStateByRange s "record:" "record:\uffff") UnmarshalRecord
        Record.DocType Record.ID "record:" "record" out) ∧
    (∀ ci search out, QueryRecords ci s search = .ok out →
      OrderedListing (GetStateByRange s "record:" "record:\uffff") UnmarshalRecord
        Record.DocType Record.ID "record:" "record" out) := by
  refine ⟨?_, ?_, ?_, ?_, ?_⟩
  · intro out h
    simp only [QueryAllPolicies, QueryAllPolicies_loop_eq] at h
    exact scanLoop_listing _ _ _ _ _ _ (fun x hx => by simpa using hx) _
      (GetStateByRange_sorted s hs _ _) out h
  · intro out h
    simp only [QueryAllOrganizations, QueryAllOrganizations_loop_eq] at h
    exact scanLoop_listing _ _ _ _ _ _ (fun x hx => by simpa using hx) _
      (GetStateByRange_sorted s hs _ _) out h
  · intro ci filters role out h
    simp only [QueryAllCases, QueryAllCases_loop_eq] at h
    cases hci : ci.err with
    | some e => simp [hci] at h
    | none =>
      simp only [hci] at h
      exact scanLoop_listing _ _ _ _ _ _
        (fun x hx => by
          simp only [keepCase, Bool.and_eq_true, decide_eq_true_eq] at hx; exact hx.1)
        _ (GetStateByRange_sorted s hs _ _) out h
  · intro ci caseId out h
    simp only [QueryRecordsByCase, QueryRecordsByCase_loop_eq] at h
    cases hci : ci.err with
    | some e => simp [hci] at h
    | none =>
      simp only [hci] at h
      exact scanLoop_listing _ _ _ _ _ _
        (fun x hx => by
          simp only [keepRecordOfCase, Bool.and_eq_true, decide_eq_true_eq] at hx
          exact hx.1.1)
        _ (GetStateByRange_sorted s hs _ _) out h
  · intro ci search out h
    simp only [QueryRecords, QueryRecords_loop_eq] at h
    cases hci : ci.err with
    | some e => simp [hci] at h
    | none =>
      simp only [hci] at h
      exact scanLoop_listing _ _ _ _ _ _
        (fun x hx => by
          simp only [keepRecord, Bool.and_eq_true, decide_eq_true_eq] at hx; exact hx.1)
        _ (GetStateByRange_sorted s hs _ _) out h

/-- The scenario of C8: the listings of the state of the scenarios. -/
theorem C8_listings_ordered_and_typed_witness :
    demoState.Sorted ∧
    QueryAllCases (caller "OrgA") demoState "" "Investigator" = .ok [openCase, demoCase] ∧
    OrderedListing (GetStateByRange demoState "case:" "case:\uffff") UnmarshalCase
      Case.DocType Case.ID "case:" "case" [openCase, demoCase] ∧
    OrderedListing (GetStateByRange demoState "policy:" "policy:\uffff") UnmarshalPolicy
      Policy.DocType Policy.PolicyID "policy:" "policy"
      [closedPolicy, demoPolicy, wildcardPolicy] :=
  ⟨by unfold WorldState.Sorted; decide, rfl,
   (C8_listings_ordered_and_typed demoState (by unfold WorldState.Sorted; decide)).2.2.1
      (caller "OrgA") "" "Investigator" _ rfl,
   (C8_listings_ordered_and_typed demoState (by unfold WorldState.Sorted; decide)).1 _ rfl⟩

/-- C9, the code at the failing input: a case created under an identifier that starts with a
character beyond U+FFFF is stored under a key with the prefix of cases and is read by
QueryCase, but its key is not below the end key of the range scan, so the scan and
QueryAllCases do not have it. -/
theorem C9_range_misses_created_key :
    (CreateCase (caller "OrgA") [] "😀" "Fraud" "a fraud" "Delhi" "civil" "").1 = none ∧
    astralState.map Prod.fst = ["case:" ++ "😀"] ∧
    QueryCase (caller "OrgA") astralState "😀" "Investigator"
      = .ok { openCase with ID := "😀" } ∧
    keyLt ("case:" ++ "😀") "case:\uffff" = false ∧
    GetStateByRange astralState "case:" "case:\uffff" = [] ∧
    QueryAllCases (caller "OrgA") astralState "" "Investigator" = .ok [] :=
  ⟨rfl, rfl, rfl, rfl, rfl, rfl⟩

/-- C10, against the claim as stated: under a policy whose allowedOrgs is the wildcard alone,
CreateCase succeeds for OrgB although OrgB is not present in the allowedOrgs of the stored
policy. -/
theorem C10_wildcard_admits_absent_org :
    StoredPolicy demoState "PW" wildcardPolicy ∧
    GetState demoState ("case:" ++ "C9") = none ∧
    (CreateCase (caller "OrgB") demoState "C9" "Fraud" "a fraud" "Delhi" "civil" "PW").1 = none ∧
    "OrgB" ∉ wildcardPolicy.AllowedOrgs.elems :=
  ⟨⟨_, rfl, rfl⟩, rfl, rfl, by decide⟩

/-- C10, amended: for a caller whose organization is resolved to org, a non-empty policyId and
an absent case key, CreateCase succeeds only if a policy is stored under the policyId and org
or the wildcard is in its allowedOrgs; when the policy key is absent, or the stored policy has
neither org nor the wildcard in allowedOrgs, CreateCase fails, and whenever it fails the world
state is the one it was given. -/
theorem C10_case_admission (s : WorldState)
    (org id title description jurisdiction caseType policyId : String)
    (hbound : policyId ≠ "") (habsent : GetState s ("case:" ++ id) = none) :
    ((CreateCase (caller org) s id title description jurisdiction caseType policyId).1 = none →
      ∃ P, StoredPolicy s policyId P ∧
        (org ∈ P.AllowedOrgs.elems ∨ "*" ∈ P.AllowedOrgs.elems)) ∧
    (GetState s ("policy:" ++ policyId) = none →
      CreateCase (caller org) s id title description jurisdiction caseType policyId
        = (some (.getPolicy policyId (.policyNotExist policyId)), s)) ∧
    (∀ P, StoredPolicy s policyId P →
      org ∉ P.AllowedOrgs.elems → "*" ∉ P.AllowedOrgs.elems →
      CreateCase (caller org) s id title description jurisdiction caseType policyId
        = (some (.organizationNotAllowed org policyId), s)) ∧
    ((CreateCase (caller org) s id title description jurisdiction caseType policyId).1 ≠ none →
      (CreateCase (caller org) s id title description jurisdiction caseType policyId).2 = s) := by
  refine ⟨?_, ?_, ?_, ?_⟩
  · intro h
    cases hq : QueryPolicy s policyId with
    | error e => simp [CreateCase, habsent, hbound, hq] at h
    | ok P =>
      refine ⟨P, stored_of_QueryPolicy hq, ?_⟩
      rw [← orgAllowed_iff]
      cases ha : orgAllowed P.AllowedOrgs.elems org with
      | true => rfl
      | false => simp [CreateCase, habsent, hbound, hq, caller, ha] at h
  · intro h
    simp [CreateCase, habsent, hbound, QueryPolicy, h]
  · intro P hP h1 h2
    have ha : orgAllowed P.AllowedOrgs.elems org = false := by
      cases ha : orgAllowed P.AllowedOrgs.elems org with
      | false => rfl
      | true => rcases (orgAllowed_iff _ _).1 ha with h | h <;> contradiction
    simp [CreateCase, habsent, hbound, QueryPolicy_of_stored hP, caller, ha]
  · intro h
    cases hq : QueryPolicy s policyId with
    | error e => simp [CreateCase, habsent, hbound, hq]
    | ok P =>
      cases ha : orgAllowed P.AllowedOrgs.elems org with
      | true => simp [CreateCase, habsent, hbound, hq, caller, ha] at h
      | false => simp [CreateCase, habsent, hbound, hq, caller, ha]

/-- The scenario of C10: OrgB is admitted under the wildcard policy PW, turned away under P1,
which allows OrgA alone, and under P7, which is not stored. -/
theorem C10_case_admission_witness :
    (CreateCase (caller "OrgB") demoState "C9" "Fraud" "a fraud" "Delhi" "civil" "PW").1 = none ∧
    (∃ P, StoredPolicy demoState "PW" P ∧
      ("OrgB" ∈ P.AllowedOrgs.elems ∨ "*" ∈ P.AllowedOrgs.elems)) ∧
    CreateCase (caller "OrgB") demoState "C9" "Fraud" "a fraud" "Delhi" "civil" "P1"
      = (some (.organizationNotAllowed "OrgB" "P1"), demoState) ∧
    CreateCase (caller "OrgB") demoState "C9" "Fraud" "a fraud" "Delhi" "civil" "P7"
      = (some (.getPolicy "P7" (.policyNotExist "P7")), demoState) :=
  ⟨rfl,
   (C10_case_admission demoState "OrgB" "C9" "Fraud" "a fraud" "Delhi" "civil" "PW"
      (by decide) rfl).1 rfl,
   (C10_case_admission demoState "OrgB" "C9" "Fraud" "a fraud" "Delhi" "civil" "P1"
      (by decide) rfl).2.2.1 demoPolicy ⟨_, rfl, rfl⟩ (by decide) (by decide),
   (C10_case_admission demoState "OrgB" "C9" "Fraud" "a fraud" "Delhi" "civil" "P7"
      (by decide) rfl).2.1 rfl⟩

/-- C11, against the claim as stated: the record R1 is in the range scan of record keys, has
the tag "record" and the policy P1, which is stored and has OrgA in allowedOrgs, but
QueryRecords by OrgA returns no list: a value of the scan that is no record makes it return
the decode error. -/
theorem C11_undecodable_value_no_listing :
    StoredRecord corruptState "R1" demoRecord ∧
    demoRecord.DocType = "record" ∧ demoRecord.PolicyID ≠ "" ∧
    StoredPolicy corruptState demoRecord.PolicyID demoPolicy ∧
    "OrgA" ∈ demoPolicy.AllowedOrgs.elems ∧
    QueryRecords (caller "OrgA") corruptState "" = .error .json :=
  ⟨⟨_, rfl, rfl⟩, rfl, by decide, ⟨_, rfl, rfl⟩, by decide, rfl⟩

/-- C11, amended: for a caller whose organization is resolved to org, where the values of the
range scan of record keys decode to the records rs, QueryRecords returns the records of rs, in
scan order, that pass the test of its loop; a record passes exactly when it has the tag
"record", a non-empty policyId, and a stored policy under that policyId that decodes and has
org or the wildcard in allowedOrgs. The roles of the policies have no influence: in another
state with the same scan whose policy lookups differ at most in what they give besides
allowedOrgs, the result is the same. Where a value of the scan does not decode, QueryRecords
returns the decode error. -/
theorem C11_query_records_org_only (s : WorldState) (org search : String) :
    (∀ rs, decodeScan UnmarshalRecord (GetStateByRange s "record:" "record:\uffff") = .ok rs →
      QueryRecords (caller org) s search = .ok (rs.filter (keepRecord s org))) ∧
    (∀ r, keepRecord s org r = true ↔
      r.DocType = "record" ∧ r.PolicyID ≠ "" ∧
        ∃ P, StoredPolicy s r.PolicyID P ∧
          (org ∈ P.AllowedOrgs.elems ∨ "*" ∈ P.AllowedOrgs.elems)) ∧
    (∀ s2, GetStateByRange s2 "record:" "record:\uffff"
        = GetStateByRange s "record:" "record:\uffff" →
      (∀ policyId, SameOrgs (QueryPolicy s policyId) (QueryPolicy s2 policyId)) →
      QueryRecords (caller org) s2 search = QueryRecords (caller org) s search) ∧
    (∀ err, decodeScan UnmarshalRecord (GetStateByRange s "record:" "record:\uffff")
        = .error err →
      QueryRecords (caller org) s search = .error err) := by
  refine ⟨?_, keepRecord_iff s org, ?_, ?_⟩
  · intro rs h
    rw [QueryRecords_eq, h]
    rfl
  · intro s2 hscan hpol
    have hkeep : keepRecord s2 org = keepRecord s org :=
      funext (keepRecord_congr s s2 org hpol)
    rw [QueryRecords_eq, QueryRecords_eq, hscan, hkeep]
  · intro err h
    rw [QueryRecords_eq, h]
    rfl

/-- The scenario of C11: OrgA is listed the records R1 and R2, also R2 whose policy allows no
role, and not R0, which has no policy; OrgB is listed nothing; with the roles of P1 taken away
the listing of OrgA is the same. -/
theorem C11_query_records_org_only_witness :
    decodeScan UnmarshalRecord (GetStateByRange demoState "record:" "record:\uffff")
      = .ok [openRecord, demoRecord, closedRecord] ∧
    QueryRecords (caller "OrgA") demoState "" = .ok [demoRecord, closedRecord] ∧
    QueryRecords (caller "OrgB") demoState "" = .ok [] ∧
    keepRecord demoState "OrgA" openRecord = false ∧
    QueryRecords (caller "OrgA") rolelessState ""
      = QueryRecords (caller "OrgA") demoState "" :=
  ⟨rfl,
   ((C11_query_records_org_only demoState "OrgA" "").1 _ rfl).trans rfl,
   ((C11_query_records_org_only demoState "OrgB" "").1 _ rfl).trans rfl,
   rfl,
   (C11_query_records_org_only demoState "OrgA" "").2.2.1 rolelessState rfl
      rolelessState_SameOrgs⟩

/-- C12, against the claim as stated: the case C0 is in the range scan of case keys, has the
tag "case" and an empty policyId, but QueryAllCases returns no list: a value of the scan that
is not JSON makes it return the decode error. -/
theorem C12_undecodable_value_no_listing :
    StoredCase corruptState "C0" openCase ∧
    openCase.DocType = "case" ∧ openCase.PolicyID = "" ∧
    QueryAllCases (caller "OrgA") corruptState "" "Investigator" = .error .json :=
  ⟨⟨_, rfl, rfl⟩, rfl, rfl, rfl⟩

/-- C12, amended: for a caller whose organization is resolved to org and a role, where the
values of the range scan of case keys decode to the cases rs, QueryAllCases returns the cases
of rs, in scan order, that pass the test of its loop; a case passes exactly when it has the tag
"case" and either an empty policyId or a stored policy under its policyId that decodes and has
(org or the wildcard in allowedOrgs) and (role or the wildcard in allowedRoles). Where a value
of the scan does not decode, QueryAllCases returns the decode error. -/
theorem C12_query_all_cases_exact (s : WorldState) (org filters role : String) :
    (∀ rs, decodeScan UnmarshalCase (GetStateByRange s "case:" "case:\uffff") = .ok rs →
      QueryAllCases (caller org) s filters role = .ok (rs.filter (keepCase s org role))) ∧
    (∀ c, keepCase s org role c = true ↔
      c.DocType = "case" ∧ (c.PolicyID = "" ∨
        ∃ P, StoredPolicy s c.PolicyID P ∧
          (org ∈ P.AllowedOrgs.elems ∨ "*" ∈ P.AllowedOrgs.elems) ∧
          (role ∈ P.AllowedRoles.elems ∨ "*" ∈ P.AllowedRoles.elems))) ∧
    (∀ err, decodeScan UnmarshalCase (GetStateByRange s "case:" "case:\uffff") = .error err →
      QueryAllCases (caller org) s filters role = .error err) := by
  refine ⟨?_, keepCase_iff s org role, ?_⟩
  · intro rs h
    rw [QueryAllCases_eq, h]
    rfl
  · intro err h
    rw [QueryAllCases_eq, h]
    rfl

/-- The scenario of C12: OrgA as Investigator is listed the open case C0 and the case C1 under
policy P1, not C2 whose policy allows no role; OrgB is listed C0 alone. -/
theorem C12_query_all_cases_exact_witness :
    decodeScan UnmarshalCase (GetStateByRange demoState "case:" "case:\uffff")
      = .ok [openCase, demoCase, closedCase] ∧
    QueryAllCases (caller "OrgA") demoState "" "Investigator" = .ok [openCase, demoCase] ∧
    QueryAllCases (caller "OrgB") demoState "" "Investigator" = .ok [openCase] ∧
    keepCase demoState "OrgA" "Investigator" closedCase = false :=
  ⟨rfl,
   ((C12_query_all_cases_exact demoState "OrgA" "" "Investigator").1 _ rfl).trans rfl,
   ((C12_query_all_cases_exact demoState "OrgB" "" "Investigator").1 _ rfl).trans rfl,
   rfl⟩

/-- C13: the filters of QueryAllCases and the searchJSON of QueryRecords have no influence on
what is returned: two calls that differ only in that argument return the same list or the same
error, for every client identity, role and world state; so no value of the argument, empty or
not, makes a call fail that succeeds for another. -/
theorem C13_filter_not_applied (ci : ClientIdentity) (s : WorldState)
    (role f1 f2 s1 s2 : String) :
    QueryAllCases ci s f1 role = QueryAllCases ci s f2 role ∧
    QueryRecords ci s s1 = QueryRecords ci s s2 ∧
    (∀ err, QueryAllCases ci s f1 role = .error err →
      QueryAllCases ci s "" role = .error err) ∧
    (∀ err, QueryRecords ci s s1 = .error err → QueryRecords ci s "" = .error err) := by
  refine ⟨rfl, rfl, ?_, ?_⟩
  · intro err h
    exact h
  · intro err h
    exact h

/-- The scenario of C13: a filter that is not empty gives the listing of the empty filter. -/
theorem C13_filter_not_applied_witness :
    QueryAllCases (caller "OrgA") demoState "selector" "Investigator"
      = .ok [openCase, demoCase] ∧
    QueryRecords (caller "OrgA") demoState "selector" = .ok [demoRecord, closedRecord] :=
  ⟨(C13_filter_not_applied (caller "OrgA") demoState "Investigator" "selector" ""
      "" "").1.trans rfl,
   (C13_filter_not_applied (caller "OrgA") demoState "Investigator" "" ""
      "selector" "").2.1.trans rfl⟩

/-- C14: the listing with an empty filters argument leaves stored cases out. In the state that
the ten invocations of the scenario lead to from the empty store, the cases C0, C1 and C2 are
stored under keys with the head of case keys, all three are in the range scan and decode, and
OrgA as Clerk, with an empty filters argument, is listed the open case C0 alone: C1 and C2,
whose policies do not grant the role, are not returned, where the comment on QueryAllCases says
that with empty filters all cases are returned. -/
theorem C14_empty_filter_drops_stored_cases :
    runAll [] demoInvocations = demoState ∧
    StoredCase demoState "C0" openCase ∧ StoredCase demoState "C1" demoCase ∧
    StoredCase demoState "C2" closedCase ∧
    decodeScan UnmarshalCase (GetStateByRange demoState "case:" "case:\uffff")
      = .ok [openCase, demoCase, closedCase] ∧
    QueryAllCases (caller "OrgA") demoState "" "Clerk" = .ok [openCase] ∧
    demoCase ∉ [openCase] ∧ closedCase ∉ [openCase] :=
  ⟨rfl, ⟨_, rfl, rfl⟩, ⟨_, rfl, rfl⟩, ⟨_, rfl, rfl⟩, rfl, rfl, by decide, by decide⟩

/-- C15, against the claim as stated: one case and one record whose id is stored as a number
make the three list queries return the decode error and nothing else, although the other
cases and records are read as before. -/
theorem C15_undecodable_item_aborts :
    QueryAllCases (caller "OrgA") mistypedState "" "Investigator" = .error .json ∧
    QueryRecordsByCase (caller "OrgA") mistypedState "C1" = .error .json ∧
    QueryRecords (caller "OrgA") mistypedState "" = .error .json ∧
    QueryCase (caller "OrgA") mistypedState "C1" "Investigator" = .ok demoCase ∧
    QueryRecord (caller "OrgA") mistypedState "R1" "Investigator" = .ok demoRecord :=
  ⟨rfl, rfl, rfl, rfl, rfl⟩

/-- C15, amended: for a caller whose organization is resolved, QueryAllCases,
QueryRecordsByCase and QueryRecords return a list whenever every value of their range scan
decodes, whatever the lookups of the policies the items name give: the list is the decoded
items that pass the test of the loop, and an item whose policy lookup fails (the policy is
absent or its value does not decode) does not pass it. A value of the range scan that does not
decode makes the query return that decode error. -/
theorem C15_list_queries_best_effort (s : WorldState)
    (org role caseId filters search : String) :
    (∀ rs, decodeScan UnmarshalCase (GetStateByRange s "case:" "case:\uffff") = .ok rs →
      QueryAllCases (caller org) s filters role = .ok (rs.filter (keepCase s org role))) ∧
    (∀ rs, decodeScan UnmarshalRecord (GetStateByRange s "record:" "record:\uffff") = .ok rs →
      QueryRecordsByCase (caller org) s caseId
        = .ok (rs.filter (keepRecordOfCase s org caseId)) ∧
      QueryRecords (caller org) s search = .ok (rs.filter (keepRecord s org))) ∧
    (∀ (c : Case) err, c.PolicyID ≠ "" → QueryPolicy s c.PolicyID = .error err →
      keepCase s org role c = false) ∧
    (∀ (r : Record) err, QueryPolicy s r.PolicyID = .error err →
      keepRecordOfCase s org caseId r = false ∧ keepRecord s org r = false) ∧
    (∀ err, decodeScan UnmarshalCase (GetStateByRange s "case:" "case:\uffff") = .error err →
      QueryAllCases (caller org) s filters role = .error err) ∧
    (∀ err, decodeScan UnmarshalRecord (GetStateByRange s "record:" "record:\uffff")
        = .error err →
      QueryRecordsByCase (caller org) s caseId = .error err ∧
      QueryRecords (caller org) s search = .error err) := by
  refine ⟨?_, ?_, ?_, ?_, ?_, ?_⟩
  · intro rs h
    rw [QueryAllCases_eq, h]
    rfl
  · intro rs h
    rw [QueryRecordsByCase_eq, QueryRecords_eq, h]
    exact ⟨rfl, rfl⟩
  · intro c err hc hq
    simp [keepCase, hc, hq]
  · intro r err hq
    simp [keepRecordOfCase, keepRecord, hq]
  · intro err h
    rw [QueryAllCases_eq, h]
    rfl
  · intro err h
    rw [QueryRecordsByCase_eq, QueryRecords_eq, h]
    exact ⟨rfl, rfl⟩

/-- The scenario of C15: a case and a record name a policy that is not stored; the list
queries leave them out and return the others, while the single reads of the two fail. -/
theorem C15_list_queries_best_effort_witness :
    QueryAllCases (caller "OrgA") danglingState "" "Investigator"
      = .ok [openCase, demoCase] ∧
    QueryRecordsByCase (caller "OrgA") danglingState "C1" = .ok [demoRecord] ∧
    QueryRecords (caller "OrgA") danglingState "" = .ok [demoRecord, closedRecord] ∧
    QueryCase (caller "OrgA") danglingState "C4" "Investigator"
      = .error (.getPolicy "P9" (.policyNotExist "P9")) ∧
    QueryRecord (caller "OrgA") danglingState "R4" "Investigator"
      = .error (.getPolicy "P9" (.policyNotExist "P9")) :=
  ⟨((C15_list_queries_best_effort danglingState "OrgA" "Investigator" "C1" "" "").1
      _ rfl).trans rfl,
   (((C15_list_queries_best_effort danglingState "OrgA" "Investigator" "C1" "" "").2.1
      _ rfl).1).trans rfl,
   (((C15_list_queries_best_effort danglingState "OrgA" "Investigator" "C1" "" "").2.1
      _ rfl).2).trans rfl,
   rfl, rfl⟩

/-- C16, the code at the failing input: with a client identity whose MSP id cannot be read,
CreatePolicy, and CreateCase with an empty policyId, return no error and write a document
whose createdBy is the empty MSP id, while CreateCase with the policyId of a stored policy
fails with the error of the identity and writes nothing. -/
theorem C16_identity_error_ignored :
    CreatePolicy unresolved [] "P1" (some .null) (some .null) (some .null)
      = (none, [("policy:P1", MarshalPolicy
          { Policy.zero with
            DocType := "policy", PolicyID := "P1", CreatedAt := "auto-generated" })]) ∧
    CreateCase unresolved [] "C1" "Theft" "a theft" "Delhi" "criminal" ""
      = (none, [("case:C1", MarshalCase
          (createdCase "" "C1" "Theft" "a theft" "Delhi" "criminal" ""))]) ∧
    CreateCase unresolved demoState "C9" "Theft" "a theft" "Delhi" "criminal" "P1"
      = (some (.clientMSPID "no identity"), demoState) :=
  ⟨rfl, rfl, rfl⟩

/-- C17: in a world state with keys in ascending order, after any invocation of the chaincode
by any client, a key of a policy, an organization or a user that held a value holds the same
value; a key of a case that held a value holds the same value, or the invocation is DeleteCase
for that key and the key holds nothing; a key of a record that held a value holds the same
value, or the invocation is UpdateRecordMetadata for that key, the value decoded to a record,
and the key holds a record with the same docType, id, caseId, fileHash, offChainUri and
createdAt. -/
theorem C17_documents_immutable (s : WorldState) (hs : s.Sorted) (ci : ClientIdentity)
    (op : Invocation) (key : String) (v : Bytes) (hv : GetState s key = some v) :
    ((KeyOfType "policy:" key ∨ KeyOfType "org:" key ∨ KeyOfType "user:" key) →
      GetState (op.after ci s) key = some v) ∧
    (KeyOfType "case:" key →
      GetState (op.after ci s) key = some v ∨
      ∃ id, op = .deleteCase id ∧ key = "case:" ++ id ∧
        GetState (op.after ci s) key = none) ∧
    (KeyOfType "record:" key →
      GetState (op.after ci s) key = some v ∨
      ∃ id metadataJSON r r2, op = .updateRecordMetadata id metadataJSON ∧
        key = "record:" ++ id ∧ UnmarshalRecord v = .ok r ∧
        GetState (op.after ci s) key = some (MarshalRecord r2) ∧
        r2.DocType = r.DocType ∧ r2.ID = r.ID ∧ r2.CaseID = r.CaseID ∧
        r2.FileHash = r.FileHash ∧ r2.OffChainURI = r.OffChainURI ∧
        r2.CreatedAt = r.CreatedAt) := by
  refine ⟨?_, ?_, ?_⟩
  · intro hkey
    rcases after_keeps ci s op key v hv with h | ⟨id, -, hk⟩ | ⟨id, m, -, hk⟩
    · exact h
    · exfalso
      rcases hkey with ⟨x, hx⟩ | ⟨x, hx⟩ | ⟨x, hx⟩
      · exact (case_key_ne id x).1 (hx ▸ hk)
      · exact (case_key_ne id x).2.1 (hx ▸ hk)
      · exact (case_key_ne id x).2.2.1 (hx ▸ hk)
    · exfalso
      rcases hkey with ⟨x, hx⟩ | ⟨x, hx⟩ | ⟨x, hx⟩
      · exact (record_key_ne id x).1 (hx ▸ hk)
      · exact (record_key_ne id x).2.1 (hx ▸ hk)
      · exact (record_key_ne id x).2.2.1 (hx ▸ hk)
  · rintro ⟨x, hx⟩
    rcases after_keeps ci s op key v hv with h | ⟨id, hop, hk⟩ | ⟨id, m, -, hk⟩
    · exact Or.inl h
    · right
      refine ⟨id, hop, hk, ?_⟩
      subst hop hk
      simp only [Invocation.after]
      rw [DeleteCase_eq_of_stored s id v hv]
      exact GetState_DelState_same s hs _
    · exact absurd (hx ▸ hk) (record_key_ne id x).2.2.2
  · rintro ⟨x, hx⟩
    rcases after_keeps ci s op key v hv with h | ⟨id, -, hk⟩ | ⟨id, m, hop, hk⟩
    · exact Or.inl h
    · exact absurd (hx ▸ hk) (case_key_ne id x).2.2.2
    · subst hop hk
      simp only [Invocation.after]
      rcases UpdateRecordMetadata_same s id m v hv with h | ⟨r, u, hr, h⟩
      · exact Or.inl h
      · exact Or.inr ⟨id, m, r, mergeMetadata r u, rfl, rfl, hr, h,
          rfl, rfl, rfl, rfl, rfl, rfl⟩

/-- The scenario of C17: DeleteCase for C1 leaves the policy P1 and the case C0 as they were
and removes C1; UpdateRecordMetadata for R1 leaves the user alice as she was. -/
theorem C17_documents_immutable_witness :
    demoState.Sorted ∧
    GetState ((Invocation.deleteCase "C1").after (caller "OrgA") demoState) "policy:P1"
      = some (MarshalPolicy demoPolicy) ∧
    GetState ((Invocation.deleteCase "C1").after (caller "OrgA") demoState) "case:C0"
      = some (MarshalCase openCase) ∧
    GetState ((Invocation.deleteCase "C1").after (caller "OrgA") demoState) "case:C1"
      = none ∧
    GetState ((Invocation.updateRecordMetadata "R1" (some (.obj []))).after (caller "OrgA")
      demoState) "user:alice" = GetState demoState "user:alice" :=
  ⟨demoState_sorted,
   (C17_documents_immutable demoState demoState_sorted (caller "OrgA") (.deleteCase "C1")
      "policy:P1" _ rfl).1 (Or.inl ⟨"P1", rfl⟩),
   rfl, rfl,
   (C17_documents_immutable demoState demoState_sorted (caller "OrgA")
      (.updateRecordMetadata "R1" (some (.obj []))) "user:alice" _ rfl).1
      (Or.inr (Or.inr ⟨"alice", rfl⟩))⟩

/-- C18: in a world state with keys in ascending order, DeleteCase for an id whose case key is
absent fails with the error that the case does not exist and returns the state it was given;
for an id whose case key holds a value it succeeds, the key holds nothing afterwards, every
other key holds what it held, and QueryCase for the id then fails with the not-found error for
every client identity and role. -/
theorem C18_delete_case (s : WorldState) (hs : s.Sorted) (id : String) :
    (GetState s ("case:" ++ id) = none →
      DeleteCase s id = (some (.caseNotExist id), s)) ∧
    (∀ v, GetState s ("case:" ++ id) = some v →
      (DeleteCase s id).1 = none ∧
      GetState (DeleteCase s id).2 ("case:" ++ id) = none ∧
      (∀ key, key ≠ "case:" ++ id → GetState (DeleteCase s id).2 key = GetState s key) ∧
      ∀ ci role, QueryCase ci (DeleteCase s id).2 id role = .error (.caseNotFound id)) := by
  refine ⟨DeleteCase_eq_of_absent s id, ?_⟩
  intro v hv
  have hgone : GetState (DeleteCase s id).2 ("case:" ++ id) = none := by
    rw [DeleteCase_eq_of_stored s id v hv]
    exact GetState_DelState_same s hs _
  refine ⟨?_, hgone, ?_, ?_⟩
  · rw [DeleteCase_eq_of_stored s id v hv]
  · intro key hne
    exact DeleteCase_other s id key hne
  · intro ci role
    simp [QueryCase, hgone]

/-- The scenario of C18: DeleteCase for C1 succeeds, after it C1 is not found and C0 is read
as before; DeleteCase for X9, which is not stored, fails and leaves the state. -/
theorem C18_delete_case_witness :
    demoState.Sorted ∧
    DeleteCase demoState "X9" = (some (.caseNotExist "X9"), demoState) ∧
    (DeleteCase demoState "C1").1 = none ∧
    QueryCase (caller "OrgA") (DeleteCase demoState "C1").2 "C1" "Investigator"
      = .error (.caseNotFound "C1") ∧
    QueryCase (caller "OrgA") (DeleteCase demoState "C1").2 "C0" "Investigator"
      = .ok openCase :=
  ⟨demoState_sorted,
   (C18_delete_case demoState demoState_sorted "X9").1 rfl,
   ((C18_delete_case demoState demoState_sorted "C1").2 _ rfl).1,
   ((C18_delete_case demoState demoState_sorted "C1").2 _ rfl).2.2.2 (caller "OrgA")
      "Investigator",
   rfl⟩

/-- C19: where the case key of the id is absent, CreateCase by a caller whose organization is
resolved to org succeeds if the policyId is empty; and whenever it succeeds, the case key holds
the case with docType "case", the given id, title, description, jurisdiction, caseType and
policyId, status "Open", createdBy and organization org (and createdAt "auto-generated"), every
other key holds what it held, and if the policyId is empty QueryCase for the id returns that
case for every client identity and role. -/
theorem C19_create_case_round_trip (s : WorldState)
    (org id title description jurisdiction caseType policyId : String)
    (habsent : GetState s ("case:" ++ id) = none) :
    (policyId = "" →
      (CreateCase (caller org) s id title description jurisdiction caseType policyId).1
        = none) ∧
    ((CreateCase (caller org) s id title description jurisdiction caseType policyId).1
        = none →
      StoredCase
        (CreateCase (caller org) s id title description jurisdiction caseType policyId).2 id
        (createdCase org id title description jurisdiction caseType policyId) ∧
      (∀ key, key ≠ "case:" ++ id →
        GetState (CreateCase (caller org) s id title description jurisdiction caseType
          policyId).2 key = GetState s key) ∧
      (policyId = "" → ∀ ci role,
        QueryCase ci
          (CreateCase (caller org) s id title description jurisdiction caseType policyId).2
          id role
        = .ok (createdCase org id title description jurisdiction caseType policyId))) := by
  constructor
  · intro hp
    simp [CreateCase, habsent, hp]
  · intro hsucc
    have heq : (CreateCase (caller org) s id title description jurisdiction caseType
        policyId).2 = PutState s ("case:" ++ id) (MarshalCase
          (createdCase org id title description jurisdiction caseType policyId)) := by
      simp only [CreateCase, habsent] at hsucc ⊢
      split at hsucc
      · simp at hsucc
      · rename_i hadm
        simp only [hadm, caller, createdCase]
    rw [heq]
    refine ⟨⟨_, GetState_PutState_same _ _ _, UnmarshalCase_MarshalCase _⟩, ?_, ?_⟩
    · intro key hne
      exact GetState_PutState_other _ _ _ _ hne
    · intro hp ci role
      simp [QueryCase, GetState_PutState_same, UnmarshalCase_MarshalCase, hp, createdCase]

/-- The scenario of C19: OrgB creates the case C9 without a policy and every caller reads it
back. -/
theorem C19_create_case_round_trip_witness :
    GetState demoState ("case:" ++ "C9") = none ∧
    (CreateCase (caller "OrgB") demoState "C9" "Fraud" "a fraud" "Goa" "civil" "").1 = none ∧
    QueryCase (caller "OrgA")
      (CreateCase (caller "OrgB") demoState "C9" "Fraud" "a fraud" "Goa" "civil" "").2
      "C9" "Clerk"
      = .ok (createdCase "OrgB" "C9" "Fraud" "a fraud" "Goa" "civil" "") :=
  ⟨rfl,
   (C19_create_case_round_trip demoState "OrgB" "C9" "Fraud" "a fraud" "Goa" "civil" ""
      rfl).1 rfl,
   ((C19_create_case_round_trip demoState "OrgB" "C9" "Fraud" "a fraud" "Goa" "civil" ""
      rfl).2 rfl).2.2 rfl (caller "OrgA") "Clerk"⟩

/-- C20: CreateRecord succeeds exactly when the record key of the id is absent, for every
policyId, stored or not or empty; and then the record key holds the record with docType
"record" and the nine arguments as its fields, and every other key holds what it held. -/
theorem C20_create_record_unvalidated (s : WorldState)
    (id caseId recordType fileHash offChainUri ownerOrg createdAt policyId
      description : String) :
    ((CreateRecord s id caseId recordType fileHash offChainUri ownerOrg createdAt policyId
        description).1 = none ↔ GetState s ("record:" ++ id) = none) ∧
    (GetState s ("record:" ++ id) = none →
      StoredRecord (CreateRecord s id caseId recordType fileHash offChainUri ownerOrg
          createdAt policyId description).2 id
        (createdRecord id caseId recordType fileHash offChainUri ownerOrg createdAt policyId
          description) ∧
      ∀ key, key ≠ "record:" ++ id →
        GetState (CreateRecord s id caseId recordType fileHash offChainUri ownerOrg
          createdAt policyId description).2 key = GetState s key) := by
  constructor
  · cases hg : GetState s ("record:" ++ id) <;> simp [CreateRecord, hg]
  · intro habsent
    simp only [CreateRecord, habsent, createdRecord]
    refine ⟨⟨_, GetState_PutState_same _ _ _, UnmarshalRecord_MarshalRecord _⟩, ?_⟩
    intro key hne
    exact GetState_PutState_other _ _ _ _ hne

/-- The scenario of C20: a record that names the policy P9, which is not stored, is created
and stored with its nine fields. -/
theorem C20_create_record_unvalidated_witness :
    GetState demoState ("policy:" ++ "P9") = none ∧
    (CreateRecord demoState "R9" "C1" "audio" "fff" "ipfs://fff" "OrgA" "2024-01-03" "P9"
      "a tape").1 = none ∧
    StoredRecord
      (CreateRecord demoState "R9" "C1" "audio" "fff" "ipfs://fff" "OrgA" "2024-01-03" "P9"
        "a tape").2 "R9"
      (createdRecord "R9" "C1" "audio" "fff" "ipfs://fff" "OrgA" "2024-01-03" "P9"
        "a tape") :=
  ⟨rfl,
   (C20_create_record_unvalidated demoState "R9" "C1" "audio" "fff" "ipfs://fff" "OrgA"
      "2024-01-03" "P9" "a tape").1.2 rfl,
   ((C20_create_record_unvalidated demoState "R9" "C1" "audio" "fff" "ipfs://fff" "OrgA"
      "2024-01-03" "P9" "a tape").2 rfl).1⟩

/-- C21: in the world state after any sequence of invocations, by any clients and with any
arguments, from the empty store, every stored case whose policyId is not empty has a policy
stored under that policyId, and the allowedOrgs of that policy contain the createdBy of the
case or the wildcard; and QueryCase, by any client, for any id and role, does not fail with
the error of a failed policy lookup. -/
theorem C21_case_policy_integrity (invocations : List (ClientIdentity × Invocation)) :
    (∀ id c, StoredCase (runAll [] invocations) id c → c.PolicyID ≠ "" →
      ∃ P, StoredPolicy (runAll [] invocations) c.PolicyID P ∧
        (c.CreatedBy ∈ P.AllowedOrgs.elems ∨ "*" ∈ P.AllowedOrgs.elems)) ∧
    (∀ ci id role policyId err,
      QueryCase ci (runAll [] invocations) id role ≠ .error (.getPolicy policyId err)) :=
  CasesBound_spec _
    (runAll_invariant invocations [] List.Pairwise.nil CasesBound_empty).2

/-- The scenario of C21: the ten invocations of the scenario lead from the empty store to
demoState, where the case C1 is stored with the policyId P1, and the policy stored under P1
has OrgA, the createdBy of the case, in allowedOrgs. -/
theorem C21_case_policy_integrity_witness :
    runAll [] demoInvocations = demoState ∧
    StoredCase (runAll [] demoInvocations) "C1" demoCase ∧
    demoCase.PolicyID = "P1" ∧
    StoredPolicy (runAll [] demoInvocations) "P1" demoPolicy ∧
    ∃ P, StoredPolicy (runAll [] demoInvocations) demoCase.PolicyID P ∧
      (demoCase.CreatedBy ∈ P.AllowedOrgs.elems ∨ "*" ∈ P.AllowedOrgs.elems) :=
  ⟨rfl, ⟨_, rfl, rfl⟩, rfl, ⟨_, rfl, rfl⟩,
   (C21_case_policy_integrity demoInvocations).1 "C1" demoCase ⟨_, rfl, rfl⟩ (by decide)⟩

/-- C22: in a world state with keys in ascending order whose entries in the range scan of case
keys are as CreateCase writes them, for every caller with a resolved organization, role and
filters argument, the entries of the scan decode to cases, and QueryAllCases returns, in the
order of the scan, those of these cases for which QueryCase by the same caller and role, for
the id of the case, succeeds, each as QueryCase returns it. -/
theorem C22_listing_agrees_with_single_reads (s : WorldState) (hs : s.Sorted)
    (hwritten : ∀ e ∈ GetStateByRange s "case:" "case:\uffff", WrittenByCreateCase e)
    (org filters role : String) :
    ∃ cs, decodeScan UnmarshalCase (GetStateByRange s "case:" "case:\uffff") = .ok cs ∧
      QueryAllCases (caller org) s filters role
        = .ok (readOneByOne (caller org) s role cs) := by
  obtain ⟨cs, hcs, hfilter⟩ := decodeScan_written s hs org role
    (GetStateByRange s "case:" "case:\uffff")
    fun e he => ⟨(List.mem_filter.1 he).1, hwritten e he⟩
  refine ⟨cs, hcs, ?_⟩
  rw [QueryAllCases_eq, hcs, ← hfilter]
  rfl

/-- The scenario of C22: in demoState, OrgA as Investigator lists the cases C0 and C1, the two
that QueryCase lets it read; the case C2 has a policy without roles. -/
theorem C22_listing_agrees_with_single_reads_witness :
    demoState.Sorted ∧
    QueryAllCases (caller "OrgA") demoState "" "Investigator" = .ok [openCase, demoCase] ∧
    (∃ err, QueryCase (caller "OrgA") demoState "C2" "Investigator" = .error err) ∧
    ∃ cs, decodeScan UnmarshalCase (GetStateByRange demoState "case:" "case:\uffff") = .ok cs ∧
      QueryAllCases (caller "OrgA") demoState "" "Investigator"
        = .ok (readOneByOne (caller "OrgA") demoState "Investigator" cs) :=
  ⟨demoState_sorted, rfl, ⟨_, rfl⟩,
   C22_listing_agrees_with_single_reads demoState demoState_sorted
    (by
      intro e he
      have hr : GetStateByRange demoState "case:" "case:\uffff"
          = [("case:" ++ "C0",
                MarshalCase (createdCase "OrgA" "C0" "Fraud" "a fraud" "Delhi" "civil" "")),
             ("case:" ++ "C1",
                MarshalCase (createdCase "OrgA" "C1" "Theft" "a theft" "Delhi" "criminal"
                  "P1")),
             ("case:" ++ "C2",
                MarshalCase (createdCase "OrgA" "C2" "Arson" "an arson" "Delhi" "criminal"
                  "P0"))] := rfl
      rw [hr] at he
      simp only [List.mem_cons, List.mem_nil_iff, or_false] at he
      rcases he with h | h | h <;> exact ⟨_, _, _, _, _, _, _, h⟩)
    "OrgA" "" "Investigator"⟩

/-- C23: for every client identity, world state, caseId and searchJSON, QueryRecordsByCase
returns what QueryRecords returns restricted, in the same order, to the records whose caseId
is the given one (the same error where QueryRecords fails); so every record it returns has
that caseId. -/
theorem C23_records_by_case_refines (ci : ClientIdentity) (s : WorldState)
    (caseId search : String) :
    QueryRecordsByCase ci s caseId = restrictToCase caseId (QueryRecords ci s search) ∧
    (∀ records, QueryRecordsByCase ci s caseId = .ok records →
      ∀ r ∈ records, r.CaseID = caseId) := by
  have h : QueryRecordsByCase ci s caseId
      = restrictToCase caseId (QueryRecords ci s search) := by
    simp only [QueryRecordsByCase, QueryRecords]
    cases ci.err with
    | some e => rfl
    | none =>
      simp only [QueryRecordsByCase_loop_eq, QueryRecords_loop_eq, scanLoop_eq_decodeScan,
        List.nil_append]
      cases decodeScan UnmarshalRecord (GetStateByRange s "record:" "record:\uffff") with
      | error e => rfl
      | ok rs =>
        simp only [Except.map, restrictToCase, List.filter_filter]
        congr 2
        funext r
        rw [keepRecordOfCase_eq, Bool.and_comm]
  refine ⟨h, ?_⟩
  intro records hr r hmem
  rw [h] at hr
  cases hq : QueryRecords ci s search with
  | error e => simp [hq, restrictToCase] at hr
  | ok rs =>
    simp only [hq, restrictToCase, Except.ok.injEq] at hr
    subst hr
    simpa using (List.mem_filter.1 hmem).2

/-- The scenario of C23: in demoState, OrgA asks for the records of the case C1 and gets the
record R1, which is what the two records QueryRecords returns restrict to. -/
theorem C23_records_by_case_refines_witness :
    QueryRecordsByCase (caller "OrgA") demoState "C1" = .ok [demoRecord] ∧
    QueryRecords (caller "OrgA") demoState "" = .ok [demoRecord, closedRecord] ∧
    QueryRecordsByCase (caller "OrgA") demoState "C1"
      = restrictToCase "C1" (QueryRecords (caller "OrgA") demoState "") ∧
    demoRecord.CaseID = "C1" :=
  ⟨rfl, rfl,
   (C23_records_by_case_refines (caller "OrgA") demoState "C1" "").1,
   (C23_records_by_case_refines (caller "OrgA") demoState "C1" "").2 [demoRecord] rfl
    demoRecord (List.mem_singleton.2 rfl)⟩

end CDMS
